import Mathlib

/-!
Verification development for the ops_generator repository.

The repository turns per-operator shape descriptors (a list of dimension
tokens followed by one data token) into a classified shape model and into
synthesized C++ copy loops between a TensorFlow tensor and an OpenCV
container.  This file gives a shallow embedding of the relevant source
functions and proves properties about them.

Strings are modelled by Lean's String (a wrapper around List Char); all the
character-level processing is done on List Char.  JavaScript exceptions are
modelled by Except String carrying the exact message text thrown by the
source.  JavaScript numbers appearing in the code are always integer-valued
decimal literals that are small enough that modelling them by Nat is exact.
-/

deriving instance DecidableEq for Except

/-! ## Generic list and string helpers -/

/-- The characters of a string. -/
def chars (s : String) : List Char := s.data

/-- Build a string from characters. -/
def strOf (l : List Char) : String := ⟨l⟩

theorem strData_append (a b : String) : (a ++ b).data = a.data ++ b.data := by
  cases a; cases b; rfl

theorem strOf_data (s : String) : strOf s.data = s := by
  cases s; rfl

/-- Whether the first list is a prefix of the second (executable). -/
def startsList : List Char → List Char → Bool
  | [], _ => true
  | _ :: _, [] => false
  | p :: ps, c :: cs => p = c && startsList ps cs

/-- Split a character list at every occurrence of the separator character,
mirroring JavaScript String.prototype.split with a single-character
separator. -/
def splitCh (sep : Char) : List Char → List (List Char)
  | [] => [[]]
  | c :: cs =>
    if c = sep then [] :: splitCh sep cs
    else
      match splitCh sep cs with
      | [] => [[c]]
      | h :: t => (c :: h) :: t

/-- Join strings with a separator, mirroring JavaScript Array.prototype.join. -/
def joinSep (sep : String) : List String → String
  | [] => ""
  | [x] => x
  | x :: xs => x ++ sep ++ joinSep sep xs

/-- Decimal digits with an explicit fuel argument (the fuel is structural so
that the function reduces inside the kernel). -/
def natCharsGo : Nat → Nat → List Char
  | 0, _ => []
  | f + 1, n =>
    if n < 10 then [Nat.digitChar n]
    else natCharsGo f (n / 10) ++ [Nat.digitChar (n % 10)]

/-- Decimal digits of a natural number, most significant first. -/
def natChars (n : Nat) : List Char := natCharsGo (n + 1) n

/-- Decimal rendering of a natural number (the result of interpolating a
JavaScript integer into a template literal). -/
def natStr (n : Nat) : String := strOf (natChars n)

/-- Numeric value of a list of decimal digit characters. -/
def digitsToNat (l : List Char) : Nat :=
  l.foldl (fun a c => a * 10 + (c.toNat - 48)) 0

/-- Recognizer for the character class [0-9]. -/
def isDigitCh (c : Char) : Bool := 48 ≤ c.toNat && c.toNat ≤ 57

/-- Recognizer for the regular expression [1-9][0-9]* (a decimal numeral
without a leading zero). -/
def numeralNoLead : List Char → Bool
  | [] => false
  | c :: cs => (49 ≤ c.toNat && c.toNat ≤ 57) && cs.all isDigitCh

/-- Map a function over a list inside the Except monad, stopping at the
first error; mirrors Array.prototype.map when the callback can throw. -/
def mapE (f : α → Except ε β) : List α → Except ε (List β)
  | [] => .ok []
  | a :: as =>
    match f a with
    | .error e => .error e
    | .ok b =>
      match mapE f as with
      | .error e => .error e
      | .ok bs => .ok (b :: bs)

/-! ## lib/utils.js: lastIndexOf

Given an array and a match function, find the index of the last matched
element; -1 if none is matched.  The source walks the array with forEach,
overwriting the result whenever the callback is truthy. -/

def lastIndexOf (arr : List α) (fn : α → Bool) : Int :=
  (arr.foldl (fun (st : Int × Nat) a => (if fn a then (st.2 : Int) else st.1, st.2 + 1))
    ((-1 : Int), (0 : Nat))).1

/-! ## lib/types.js: depth-code and primitive-type lookup tables -/

def cvToStd (typeStr : String) : Except String String :=
  if typeStr = "8U" then .ok "uint8_t"
  else if typeStr = "16U" then .ok "uint16_t"
  else if typeStr = "8S" then .ok "int8_t"
  else if typeStr = "16S" then .ok "int16_t"
  else if typeStr = "32S" then .ok "int32_t"
  else if typeStr = "32F" then .ok "float"
  else if typeStr = "64F" then .ok "double"
  else .error ("Invalid data type format of CV: " ++ typeStr)

def stdToCv (typeStr : String) : Except String String :=
  if typeStr = "char" then .ok "CV_8S"
  else if typeStr = "int" then .ok "CV_32S"
  else if typeStr = "float" then .ok "CV_32F"
  else if typeStr = "double" then .ok "CV_64F"
  else .error ("Type not supported: " ++ typeStr)

/-! ## lib/shape.js: dimension descriptor parsing

A dimension token is either vector:(none|0|[1-9][0-9]*) or
(none|0|[1-9][0-9]*).  The parsed dims field holds the string none or the
parsed integer; a literal 0 raises the dedicated dimension-should-be-
positive error. -/

/-- The dims field of a parsed dimension descriptor: the string none or an
integer. -/
inductive Dims where
  | dnone : Dims
  | dnum : Nat → Dims
deriving DecidableEq

/-- Render a dims value the way a template literal would. -/
def dimsStr : Dims → String
  | Dims.dnone => "none"
  | Dims.dnum n => natStr n

structure DimDtor where
  type : String
  dims : Dims
deriving DecidableEq

/-- Recognizer for the size part of a dimension token: none, 0, or a
numeral without a leading zero. -/
def sizeTokOk (l : List Char) : Bool :=
  l = "none".data || l = "0".data || numeralNoLead l

/-- The dims value denoted by a matched size token. -/
def dimsOf (l : List Char) : Dims :=
  if l = "none".data then Dims.dnone else Dims.dnum (digitsToNat l)

def dimFmtMsg (s : String) : String := "Invalid dimensional descriptor format: " ++ s

def dimZeroMsg : String := "Invalid dimensional descriptor format: dimension should > 0"

/-- lib/shape.js parseDimDtor. -/
def parseDimDtor (s : String) : Except String DimDtor :=
  if startsList "vector:".data s.data && sizeTokOk (s.data.drop 7) then
    if s.data.drop 7 ≠ "none".data ∧ digitsToNat (s.data.drop 7) < 1 then .error dimZeroMsg
    else .ok { type := "vector", dims := dimsOf (s.data.drop 7) }
  else if sizeTokOk s.data then
    if s.data ≠ "none".data ∧ digitsToNat s.data < 1 then .error dimZeroMsg
    else .ok { type := "Mat", dims := dimsOf s.data }
  else .error (dimFmtMsg s)

/-! ## lib/shape.js: data descriptor parsing

A data token is CV_(depth)(U|S|F)[C(channels)] optionally followed by a
colon and a container kind (Mat, Matx or Vec), or one of the four primitive
type names.  The source splits the token on every colon and only looks at
the first two segments. -/

structure DataDtor where
  format : String
  dtype : String
  channels : Nat
  ctype : Option String
deriving DecidableEq

/-- Continuation of depthChanMatch on the split of the segment into its
leading digit run and the remainder. -/
def depthTail (ds rest : List Char) : Option (String × Option (List Char)) :=
  if numeralNoLead ds then
    match rest with
    | [u] =>
      if u = 'U' ∨ u = 'S' ∨ u = 'F' then some (strOf (ds ++ [u]), none) else none
    | u :: 'C' :: chs =>
      if (u = 'U' ∨ u = 'S' ∨ u = 'F') ∧ numeralNoLead chs then
        some (strOf (ds ++ [u]), some chs)
      else none
    | _ => none
  else none

/-- Match the CV_(digits)(U|S|F)[C(digits)] grammar against the first
colon-segment of the token, returning the depth code and, when the C part
is present, the raw channel digits. -/
def depthChanMatch (l : List Char) : Option (String × Option (List Char)) :=
  if startsList "CV_".data l then
    depthTail ((l.drop 3).takeWhile isDigitCh) ((l.drop 3).dropWhile isDigitCh)
  else none

/-- The seven recognized depth codes. -/
def validDepth (d : String) : Bool :=
  d = "8U" || d = "8S" || d = "16U" || d = "16S" || d = "32S" || d = "32F" || d = "64F"

def dataFmtMsg (s : String) : String := "Invalid data descriptor format: " ++ s

def staticMatMsg : String :=
  "Invalid data descriptor format: static Mat type does not support multichannels"

def chanMsg (chs : List Char) (s : String) : String :=
  "Invalid Data Cell format of channel: expect number between 1, 4 but get "
    ++ strOf chs ++ " from " ++ s

def depthMsg (d : String) (s : String) : String :=
  "Invalid Data Cell format of depth: " ++ d ++ " from " ++ s

/-- The final multichannel-with-static-container check of parseDataDtor. -/
def finishData (d : DataDtor) : Except String DataDtor :=
  if d.ctype ≠ some "Mat" ∧ d.channels > 1 then .error staticMatMsg else .ok d

/-- Handling of the optional container-kind segment after the first colon:
further segments are ignored by the source, and an empty second segment is
falsy and therefore skipped. -/
def ctypeStep (s : String) (part2 : Option (List Char)) (d : DataDtor) : Except String DataDtor :=
  match part2 with
  | none => finishData d
  | some p2 =>
    if p2 = [] then finishData d
    else if p2 = "Mat".data ∨ p2 = "Matx".data ∨ p2 = "Vec".data then
      finishData { d with ctype := some (strOf p2) }
    else .error (dataFmtMsg s)

/-- The CV branch of parseDataDtor, given the first two colon-segments of
the token. -/
def cvDataStep (s : String) (part1 : List Char) (part2 : Option (List Char)) :
    Except String DataDtor :=
  match depthChanMatch part1 with
  | some (depth, some chs) =>
    if digitsToNat chs > 4 then .error (chanMsg chs s)
    else if ¬ validDepth depth then .error (depthMsg depth s)
    else
      ctypeStep s part2
        { format := "cv", dtype := depth, channels := digitsToNat chs, ctype := some "Mat" }
  | some (depth, none) =>
    if ¬ validDepth depth then .error (depthMsg depth s)
    else
      ctypeStep s part2 { format := "cv", dtype := depth, channels := 1, ctype := some "Mat" }
  | none => .error (dataFmtMsg s)

/-- lib/shape.js parseDataDtor. -/
def parseDataDtor (s : String) : Except String DataDtor :=
  if startsList "CV".data s.data then
    cvDataStep s ((splitCh ':' s.data).headD []) (splitCh ':' s.data)[1]?
  else
    if s = "char" ∨ s = "int" ∨ s = "float" ∨ s = "double" then
      .ok { format := "std", dtype := s, channels := 1, ctype := none }
    else .error (dataFmtMsg s)

/-! ## lib/shape.js: rank computation -/

def emptyShapeMsg : String := "Invalid shape format: empty shape array."

/-- lib/shape.js getTfRank: the tensor rank counts one extra axis for a
multichannel cv data descriptor. -/
def getTfRank (shape : List String) : Except String Nat :=
  if shape.isEmpty then .error emptyShapeMsg
  else do
    let dtor ← parseDataDtor (shape.getLastD "")
    let cvRank := shape.length - 1
    if dtor.format = "cv" then
      if dtor.channels = 1 then .ok cvRank else .ok (cvRank + 1)
    else .ok cvRank

/-- lib/shape.js getCvRank: number of dimension tokens. -/
def getCvRank (shape : List String) : Except String Nat :=
  if shape.isEmpty then .error emptyShapeMsg
  else .ok (shape.length - 1)

/-! ## lib/shape.js: shape classification -/

def SCALAR : String := "SCALAR"
def VEC_OF_PRIM : String := "VEC_OF_PRIM"
def VEC_OF_MAT : String := "VEC_OF_MAT"
def MAT : String := "MAT"

structure ParsedShape where
  dataDtor : DataDtor
  dimDtorArr : List DimDtor
  tfRank : Nat
  cvRank : Nat
  vecDims : Nat
  matDims : Nat
  matDimDtorArr : List DimDtor
  type : String
  varMatDecStr : Option String
  varDecStr : String
deriving DecidableEq

/-- Nested vector declaration text. -/
def declareVec (template : String) : Nat → String
  | 0 => template
  | n + 1 => "vector<" ++ declareVec template n ++ ">"

def matVectorMsg : String :=
  "Invalid shape format: Mat of vector or vector of Mat of vector is not allowed"
def vectorCvMsg : String := "Invalid shape format: vector of OpenCV type is not allowed"
def matPrimMsg : String := "Invalid shape format: Mat of primary type is not allowed"
def scalarCvMsg : String := "Invalid shape format: scalar of OpenCV type is not allowed"
def dynStaticMsg : String :=
  "Invalid shape format: dynamic dimension size is not allowed for static Mat type"
def vecOneDimMsg : String := "Invalid shape format: Vec type should be one-dimensional"

/-- The comma-separated literal sizes of the block-suffix dimension
descriptors, with the leading 1 inserted for a one-dimensional Matx. -/
def matDimsText (ctype : String) (matDims : Nat) (arr : List DimDtor) : String :=
  if ctype = "Matx" ∧ matDims = 1 then
    "1, " ++ joinSep ", " (arr.map (fun e => dimsStr e.dims))
  else joinSep ", " (arr.map (fun e => dimsStr e.dims))

/-- Per-element declaration text, on the extracted container-kind string. -/
def vecMatDecStrCore (ctype dtype : String) (matDims : Nat) (arr : List DimDtor) :
    Except String String :=
  if ctype = "Matx" ∨ ctype = "Vec" then
    if arr.any (fun e => e.dims == Dims.dnone) then .error dynStaticMsg
    else if matDims > 1 ∧ ctype = "Vec" then .error vecOneDimMsg
    else
      match cvToStd dtype with
      | .error e => .error e
      | .ok scalarT =>
        .ok (ctype ++ "<" ++ scalarT ++ ", " ++ matDimsText ctype matDims arr ++ ">")
  else .ok "Mat"

/-- Per-element declaration text for the MAT and VEC_OF_MAT cases: the
static container kinds Matx and Vec demand literal sizes (and a single
dimension for Vec); the default kind is the plain Mat type name. -/
def vecMatDecStr (dataDtor : DataDtor) (matDims : Nat) (matDimDtorArr : List DimDtor) :
    Except String String :=
  vecMatDecStrCore (dataDtor.ctype.getD "Mat") dataDtor.dtype matDims matDimDtorArr

/-- The classification and declaration-text part of lib/shape.js parseShape,
operating on the already parsed descriptors and ranks. -/
def buildShape (dataDtor : DataDtor) (dimDtorArr : List DimDtor) (tfRank cvRank : Nat) :
    Except String ParsedShape :=
  let lastVecIdx : Int := lastIndexOf dimDtorArr (fun item => item.type == "vector")
  if lastVecIdx > -1 ∧
      ¬ ((dimDtorArr.take lastVecIdx.toNat).all (fun item => item.type == "vector")) then
    .error matVectorMsg
  else
    let vecDims : Nat := (lastVecIdx + 1).toNat
    let matDims : Nat := cvRank - vecDims
    let matDimDtorArr := dimDtorArr.drop vecDims
    if lastVecIdx ≠ -1 then
      if vecDims = cvRank then
        if dataDtor.format = "cv" then .error vectorCvMsg
        else
          .ok { dataDtor := dataDtor, dimDtorArr := dimDtorArr, tfRank := tfRank,
                cvRank := cvRank, vecDims := vecDims, matDims := matDims,
                matDimDtorArr := matDimDtorArr, type := VEC_OF_PRIM,
                varMatDecStr := none, varDecStr := declareVec dataDtor.dtype vecDims }
      else
        if dataDtor.format ≠ "cv" then .error matPrimMsg
        else do
          let m ← vecMatDecStr dataDtor matDims matDimDtorArr
          .ok { dataDtor := dataDtor, dimDtorArr := dimDtorArr, tfRank := tfRank,
                cvRank := cvRank, vecDims := vecDims, matDims := matDims,
                matDimDtorArr := matDimDtorArr, type := VEC_OF_MAT,
                varMatDecStr := some m, varDecStr := declareVec m vecDims }
    else
      if dataDtor.format = "cv" then
        if cvRank = 0 then .error scalarCvMsg
        else do
          let m ← vecMatDecStr dataDtor matDims matDimDtorArr
          .ok { dataDtor := dataDtor, dimDtorArr := dimDtorArr, tfRank := tfRank,
                cvRank := cvRank, vecDims := vecDims, matDims := matDims,
                matDimDtorArr := matDimDtorArr, type := MAT,
                varMatDecStr := some m, varDecStr := m }
      else
        if cvRank > 0 then .error matPrimMsg
        else
          .ok { dataDtor := dataDtor, dimDtorArr := dimDtorArr, tfRank := tfRank,
                cvRank := cvRank, vecDims := vecDims, matDims := matDims,
                matDimDtorArr := matDimDtorArr, type := SCALAR,
                varMatDecStr := none, varDecStr := dataDtor.dtype }

/-- lib/shape.js parseShape. -/
def parseShape (shape : List String) : Except String ParsedShape :=
  if shape.isEmpty then .error emptyShapeMsg
  else do
    let dataDtor ← parseDataDtor (shape.getLastD "")
    let dimDtorArr ← mapE parseDimDtor shape.dropLast
    let tfRank ← getTfRank shape
    let cvRank ← getCvRank shape
    buildShape dataDtor dimDtorArr tfRank cvRank

/-! Sanity checks against the repository's shape.test.js expectations. -/

example : parseDimDtor "vector:none" = .ok { type := "vector", dims := Dims.dnone } := by decide
example : parseDimDtor "3" = .ok { type := "Mat", dims := Dims.dnum 3 } := by decide
example : parseDimDtor "0" = .error dimZeroMsg := by decide
example : parseDimDtor "vector:0" = .error dimZeroMsg := by decide
example : parseDimDtor "vector:" = .error (dimFmtMsg "vector:") := by decide
example : parseDimDtor "none1" = .error (dimFmtMsg "none1") := by decide

example : parseDataDtor "CV_32FC2" =
    .ok { format := "cv", dtype := "32F", channels := 2, ctype := some "Mat" } := by decide
example : parseDataDtor "CV_32FC2:Matx" = .error staticMatMsg := by decide
example : parseDataDtor "CV_64F:Vec" =
    .ok { format := "cv", dtype := "64F", channels := 1, ctype := some "Vec" } := by decide
example : parseDataDtor "int" =
    .ok { format := "std", dtype := "int", channels := 1, ctype := none } := by decide
example : parseDataDtor "CV_8UC5" = .error (chanMsg "5".data "CV_8UC5") := by decide
example : parseDataDtor "CV_8F" = .error (depthMsg "8F" "CV_8F") := by decide
example : parseDataDtor "CV_16FC1" = .error (depthMsg "16F" "CV_16FC1") := by decide
example : parseDataDtor "CV_32SC3s" = .error (dataFmtMsg "CV_32SC3s") := by decide
example : parseDataDtor "achar" = .error (dataFmtMsg "achar") := by decide

example : parseShape ["int"] =
    .ok { dataDtor := { format := "std", dtype := "int", channels := 1, ctype := none },
          dimDtorArr := [], tfRank := 0, cvRank := 0, vecDims := 0, matDims := 0,
          matDimDtorArr := [], type := SCALAR, varMatDecStr := none,
          varDecStr := "int" } := by decide

example : (parseShape ["vector:none", "double"]).map (fun r => (r.type, r.varDecStr)) =
    .ok (VEC_OF_PRIM, "vector<double>") := by decide

example : (parseShape ["vector:20", "vector:10", "char"]).map (fun r => (r.type, r.varDecStr)) =
    .ok (VEC_OF_PRIM, "vector<vector<char>>") := by decide

example : (parseShape ["vector:none", "100", "CV_8SC3"]).map
      (fun r => (r.type, r.tfRank, r.cvRank, r.vecDims, r.matDims, r.varDecStr)) =
    .ok (VEC_OF_MAT, 3, 2, 1, 1, "vector<Mat>") := by decide

example : (parseShape ["4", "CV_16S:Vec"]).map (fun r => (r.type, r.varDecStr)) =
    .ok (MAT, "Vec<int16_t, 4>") := by decide

example : (parseShape ["4", "CV_32F:Matx"]).map (fun r => (r.type, r.varDecStr)) =
    .ok (MAT, "Matx<float, 1, 4>") := by decide

example : (parseShape ["4", "4", "CV_32F:Matx"]).map (fun r => (r.type, r.varDecStr)) =
    .ok (MAT, "Matx<float, 4, 4>") := by decide

example : parseShape ["3", "3", "CV_32F:Vec"] = .error vecOneDimMsg := by decide
example : parseShape ["none", "3", "CV_32F:Vec"] = .error dynStaticMsg := by decide
example : parseShape ["CV_8U"] = .error scalarCvMsg := by decide
example : parseShape ["CV_8UC2"] = .error scalarCvMsg := by decide
example : parseShape ["10", "int"] = .error matPrimMsg := by decide
example : parseShape ["vector:none", "CV_32S"] = .error vectorCvMsg := by decide
example : parseShape ["10", "vector:10", "CV_16U"] = .error matVectorMsg := by decide
example : parseShape [] = .error emptyShapeMsg := by decide

/-! ## Inversion and support lemmas -/

theorem exbind_ok {ε α β : Type} {e : Except ε α} {k : α → Except ε β} {r : β}
    (h : e >>= k = Except.ok r) : ∃ v, e = Except.ok v ∧ k v = Except.ok r := by
  have h' : Except.bind e k = Except.ok r := h
  cases e with
  | error msg => simp [Except.bind] at h'
  | ok v => exact ⟨v, rfl, by simpa [Except.bind] using h'⟩

theorem mapE_length {f : α → Except ε β} :
    ∀ {l : List α} {l' : List β}, mapE f l = Except.ok l' → l'.length = l.length := by
  intro l
  induction l with
  | nil => intro l' h; simp [mapE] at h; simp [← h]
  | cons a as ih =>
    intro l' h
    simp only [mapE] at h
    cases hfa : f a with
    | error e => rw [hfa] at h; simp at h
    | ok b =>
      rw [hfa] at h
      cases hrest : mapE f as with
      | error e => rw [hrest] at h; simp at h
      | ok bs =>
        rw [hrest] at h
        simp only [Except.ok.injEq] at h
        subst h
        simp [ih hrest]

theorem getLastD_concat (l : List α) (a dflt : α) : (l ++ [a]).getLastD dflt = a := by
  induction l generalizing dflt with
  | nil => rfl
  | cons x xs ih => simp [List.getLastD, ih x]

theorem dropLast_concat_eq (l : List α) (a : α) : (l ++ [a]).dropLast = l := by
  simp

/-! ## Characterization of lastIndexOf -/

theorem lastIdx_foldl_snd (fn : α → Bool) (l : List α) (a : Int) (k : Nat) :
    (l.foldl (fun (st : Int × Nat) e => (if fn e then (st.2 : Int) else st.1, st.2 + 1))
      (a, k)).2 = k + l.length := by
  induction l generalizing a k with
  | nil => simp
  | cons x xs ih =>
    simp only [List.foldl_cons, ih]
    simp
    omega

theorem lastIndexOf_snoc (l : List α) (x : α) (fn : α → Bool) :
    lastIndexOf (l ++ [x]) fn = if fn x then (l.length : Int) else lastIndexOf l fn := by
  unfold lastIndexOf
  rw [List.foldl_append]
  simp only [List.foldl_cons, List.foldl_nil]
  rw [lastIdx_foldl_snd]
  simp

theorem lastIndexOf_char (arr : List α) (fn : α → Bool) :
    (lastIndexOf arr fn = -1 ∧ ∀ a ∈ arr, fn a = false) ∨
    (∃ i : Nat, ∃ h : i < arr.length, lastIndexOf arr fn = (i : Int) ∧
      fn (arr.get ⟨i, h⟩) = true ∧
      ∀ j : Nat, ∀ hj : j < arr.length, i < j → fn (arr.get ⟨j, hj⟩) = false) := by
  induction arr using List.reverseRecOn with
  | nil => exact Or.inl ⟨rfl, by simp⟩
  | append_singleton l x ih =>
    rw [lastIndexOf_snoc]
    by_cases hx : fn x = true
    · right
      refine ⟨l.length, by simp, by simp [hx], ?_, ?_⟩
      · have : (l ++ [x]).get ⟨l.length, by simp⟩ = x := by
          simp [List.get_eq_getElem]
        simpa [this] using hx
      · intro j hj hgt
        simp at hj
        omega
    · rw [if_neg hx]
      cases ih with
      | inl h =>
        left
        refine ⟨h.1, ?_⟩
        intro a ha
        rcases List.mem_append.1 ha with h1 | h2
        · exact h.2 a h1
        · simp at h2
          subst h2
          simpa using hx
      | inr h =>
        right
        obtain ⟨i, hi, heq, hfn, hmax⟩ := h
        refine ⟨i, by simp; omega, heq, ?_, ?_⟩
        · have h2 : (l ++ [x]).get ⟨i, by simp; omega⟩ = l.get ⟨i, hi⟩ := by
            simp only [List.get_eq_getElem]
            exact List.getElem_append_left _
          rw [h2]
          exact hfn
        · intro j hj hgt
          simp at hj
          by_cases hjl : j < l.length
          · have h2 : (l ++ [x]).get ⟨j, by simp; omega⟩ = l.get ⟨j, hjl⟩ := by
              simp only [List.get_eq_getElem]
              exact List.getElem_append_left _
            rw [h2]
            exact hmax j hjl hgt
          · have hj' : j = l.length := by omega
            subst hj'
            have : (l ++ [x]).get ⟨l.length, by simp⟩ = x := by
              simp [List.get_eq_getElem]
            rw [this]
            simpa using hx

theorem lastIndexOf_ge {arr : List α} {fn : α → Bool} {j : Nat} (hj : j < arr.length)
    (hfn : fn (arr.get ⟨j, hj⟩) = true) : (j : Int) ≤ lastIndexOf arr fn := by
  rcases lastIndexOf_char arr fn with ⟨_, hall⟩ | ⟨i, hi, heq, _, hmax⟩
  · exact absurd (hall _ (List.get_mem arr j hj))
      (by simp only [List.get_eq_getElem] at hfn; simp [hfn])
  · rw [heq]
    by_contra hlt
    push_neg at hlt
    have hij : i < j := by exact_mod_cast hlt
    exact absurd (hmax j hj hij)
      (by simp only [List.get_eq_getElem] at hfn; simp [hfn])

/-! ## Arithmetic facts about digit strings -/

theorem foldl_digits_ge (l : List Char) (a : Nat) :
    a ≤ l.foldl (fun a c => a * 10 + (c.toNat - 48)) a := by
  induction l generalizing a with
  | nil => simp
  | cons c cs ih =>
    simp only [List.foldl_cons]
    exact le_trans (by omega) (ih (a * 10 + (c.toNat - 48)))

theorem digitsToNat_pos {l : List Char} (h : numeralNoLead l = true) : 1 ≤ digitsToNat l := by
  cases l with
  | nil => simp [numeralNoLead] at h
  | cons c cs =>
    simp only [numeralNoLead, Bool.and_eq_true, decide_eq_true_eq] at h
    have h1 : 1 ≤ 0 * 10 + (c.toNat - 48) := by omega
    exact le_trans h1 (foldl_digits_ge cs _)

theorem numeral_ne_none {l : List Char} (h : numeralNoLead l = true) : l ≠ "none".data := by
  intro heq
  rw [heq] at h
  simp only [numeralNoLead, Bool.and_eq_true, decide_eq_true_eq] at h
  have : ('n' : Char).toNat = 110 := by decide
  omega

theorem numeral_not_vector {l : List Char} (h : numeralNoLead l = true) :
    startsList "vector:".data l = false := by
  cases l with
  | nil => simp [numeralNoLead] at h
  | cons c cs =>
    simp only [numeralNoLead, Bool.and_eq_true, decide_eq_true_eq] at h
    show (decide ('v' = c) && _) = false
    have hc : ¬ ('v' = c) := by
      intro heq
      rw [← heq] at h
      have : ('v' : Char).toNat = 118 := by decide
      omega
    simp [hc]

/-! ## Invariants of the data descriptor parser -/

theorem finishData_ok {d d' : DataDtor} (h : finishData d = .ok d') : d' = d := by
  unfold finishData at h
  split at h
  · simp at h
  · injection h with h
    exact h.symm

theorem ctypeStep_ok {s : String} {p2 : Option (List Char)} {d d' : DataDtor}
    (h : ctypeStep s p2 d = .ok d') :
    d'.format = d.format ∧ d'.dtype = d.dtype ∧ d'.channels = d.channels := by
  cases p2 with
  | none =>
    have h' : finishData d = Except.ok d' := h
    rw [finishData_ok h']; exact ⟨rfl, rfl, rfl⟩
  | some p2 =>
    have h' : (if p2 = [] then finishData d
        else if p2 = "Mat".data ∨ p2 = "Matx".data ∨ p2 = "Vec".data then
          finishData { d with ctype := some (strOf p2) }
        else .error (dataFmtMsg s)) = Except.ok d' := h
    split at h'
    · rw [finishData_ok h']; exact ⟨rfl, rfl, rfl⟩
    · split at h'
      · rw [finishData_ok h']; exact ⟨rfl, rfl, rfl⟩
      · simp at h'

theorem depthTail_chs {ds rest : List Char} {dep : String} {chs : List Char}
    (h : depthTail ds rest = some (dep, some chs)) : numeralNoLead chs = true := by
  unfold depthTail at h
  split at h
  · split at h
    · split at h
      · simp at h
      · simp at h
    · split at h
      case isTrue hcond =>
        simp only [Option.some.injEq, Prod.mk.injEq] at h
        obtain ⟨-, h2⟩ := h
        rw [← h2]
        exact hcond.2
      case isFalse => simp at h
    · simp at h
  · simp at h

theorem depthChanMatch_chs {l : List Char} {dep : String} {chs : List Char}
    (h : depthChanMatch l = some (dep, some chs)) : numeralNoLead chs = true := by
  unfold depthChanMatch at h
  split at h
  · exact depthTail_chs h
  · simp at h

theorem cvDataStep_props {s : String} {p1 : List Char} {p2 : Option (List Char)} {d : DataDtor}
    (h : cvDataStep s p1 p2 = .ok d) : d.format = "cv" ∧ 1 ≤ d.channels := by
  unfold cvDataStep at h
  split at h
  case _ dep chs hmatch =>
    split at h
    · simp at h
    · split at h
      · simp at h
      · have hp := ctypeStep_ok h
        have hch := digitsToNat_pos (depthChanMatch_chs hmatch)
        exact ⟨hp.1, by rw [hp.2.2]; exact hch⟩
  case _ dep hmatch =>
    split at h
    · simp at h
    · have hp := ctypeStep_ok h
      exact ⟨hp.1, by rw [hp.2.2]⟩
  case _ => simp at h

theorem parseDataDtor_props {s : String} {d : DataDtor} (h : parseDataDtor s = .ok d) :
    (d.format = "cv" ∨ d.format = "std") ∧ 1 ≤ d.channels := by
  unfold parseDataDtor at h
  split at h
  · have hp := cvDataStep_props h
    exact ⟨Or.inl hp.1, hp.2⟩
  · split at h
    · injection h with h
      subst h
      exact ⟨Or.inr rfl, Nat.le_refl 1⟩
    · simp at h

/-! ## Field lemmas for the classifier -/

theorem buildShape_ok {d : DataDtor} {dims : List DimDtor} {tf cv : Nat} {r : ParsedShape}
    (h : buildShape d dims tf cv = .ok r) :
    r.dataDtor = d ∧ r.dimDtorArr = dims ∧ r.tfRank = tf ∧ r.cvRank = cv := by
  simp only [buildShape] at h
  split at h
  · simp at h
  · split at h
    · split at h
      · split at h
        · simp at h
        · injection h with h
          subst h
          exact ⟨rfl, rfl, rfl, rfl⟩
      · split at h
        · simp at h
        · obtain ⟨m, _, h⟩ := exbind_ok h
          injection h with h
          subst h
          exact ⟨rfl, rfl, rfl, rfl⟩
    · split at h
      · split at h
        · simp at h
        · obtain ⟨m, _, h⟩ := exbind_ok h
          injection h with h
          subst h
          exact ⟨rfl, rfl, rfl, rfl⟩
      · split at h
        · simp at h
        · injection h with h
          subst h
          exact ⟨rfl, rfl, rfl, rfl⟩

theorem getCvRank_ok {shape : List String} {cv : Nat} (hne : shape.isEmpty = false)
    (h : getCvRank shape = .ok cv) : cv = shape.length - 1 := by
  unfold getCvRank at h
  rw [hne] at h
  simp at h
  exact h.symm

theorem getTfRank_ok {shape : List String} {d : DataDtor} {tf : Nat}
    (hne : shape.isEmpty = false) (hd : parseDataDtor (shape.getLastD "") = .ok d)
    (h : getTfRank shape = .ok tf) :
    tf = (if d.format = "cv" ∧ 1 < d.channels then shape.length - 1 + 1
          else shape.length - 1) := by
  unfold getTfRank at h
  rw [hne] at h
  simp only [Bool.false_eq_true, if_false] at h
  obtain ⟨d2, hd2, h⟩ := exbind_ok h
  rw [hd] at hd2
  injection hd2 with hd2
  subst hd2
  have hch := (parseDataDtor_props hd).2
  split at h
  · split at h
    · injection h with h
      rw [← h]
      have : ¬ (d.format = "cv" ∧ 1 < d.channels) := by
        rintro ⟨-, hgt⟩
        omega
      rw [if_neg this]
    · injection h with h
      rw [← h]
      rw [if_pos]
      refine ⟨by assumption, ?_⟩
      omega
  · injection h with h
    rw [← h]
    have : ¬ (d.format = "cv" ∧ 1 < d.channels) := by
      rintro ⟨hcv, -⟩
      exact absurd hcv (by assumption)
    rw [if_neg this]

/-- Inversion of a successful parseShape into its constituents. -/
theorem parseShape_ok_parts {shape : List String} {r : ParsedShape}
    (h : parseShape shape = .ok r) :
    ∃ d dims, shape.isEmpty = false ∧
      parseDataDtor (shape.getLastD "") = .ok d ∧
      mapE parseDimDtor shape.dropLast = .ok dims ∧
      buildShape d dims r.tfRank r.cvRank = .ok r ∧
      r.dataDtor = d ∧ r.dimDtorArr = dims ∧
      r.cvRank = shape.length - 1 ∧
      r.tfRank = (if d.format = "cv" ∧ 1 < d.channels then shape.length - 1 + 1
                  else shape.length - 1) := by
  unfold parseShape at h
  by_cases he : shape.isEmpty
  · rw [if_pos he] at h
    simp at h
  · rw [if_neg he] at h
    rw [Bool.not_eq_true] at he
    obtain ⟨d, hd, h⟩ := exbind_ok h
    obtain ⟨dims, hdims, h⟩ := exbind_ok h
    obtain ⟨tf, htf, h⟩ := exbind_ok h
    obtain ⟨cv, hcv, h⟩ := exbind_ok h
    obtain ⟨h1, h2, h3, h4⟩ := buildShape_ok h
    refine ⟨d, dims, he, hd, hdims, ?_, h1, h2, ?_, ?_⟩
    · rw [h3, h4]; exact h
    · rw [h4, getCvRank_ok he hcv]
    · rw [h3, getTfRank_ok he hd htf]

/-! ## Claim C6 -/

/-- C6: parseDimDtor raises the dedicated "dimension should > 0" error on the
literal zero tokens "0" and "vector:0", and that error differs from the
generic invalid-format error those tokens would otherwise produce; tokens
matching neither dimension grammar get the generic format error carrying the
token; "none", "vector:none" and positive integer literals are accepted. -/
theorem C6_dim_zero_error (s : String) :
    (parseDimDtor "0" = .error dimZeroMsg ∧
     parseDimDtor "vector:0" = .error dimZeroMsg ∧
     dimZeroMsg ≠ dimFmtMsg "0" ∧
     dimZeroMsg ≠ dimFmtMsg "vector:0" ∧
     parseDimDtor "none" = .ok { type := "Mat", dims := Dims.dnone } ∧
     parseDimDtor "vector:none" = .ok { type := "vector", dims := Dims.dnone }) ∧
    ((startsList "vector:".data s.data && sizeTokOk (s.data.drop 7)) = false →
      sizeTokOk s.data = false →
      parseDimDtor s = .error (dimFmtMsg s)) ∧
    (numeralNoLead s.data = true →
      parseDimDtor s = .ok { type := "Mat", dims := Dims.dnum (digitsToNat s.data) }) := by
  refine ⟨by decide, ?_, ?_⟩
  · intro h1 h2
    unfold parseDimDtor
    rw [h1, if_neg (by simp), h2]
    simp
  · intro hnum
    unfold parseDimDtor
    have hv : startsList "vector:".data s.data = false := numeral_not_vector hnum
    rw [hv]
    simp only [Bool.false_and, Bool.false_eq_true, if_false]
    have hs : sizeTokOk s.data = true := by
      unfold sizeTokOk
      rw [hnum]
      simp
    rw [hs]
    simp only [if_true]
    have hpos := digitsToNat_pos hnum
    rw [if_neg (by rintro ⟨-, hlt⟩; omega)]
    unfold dimsOf
    rw [if_neg (numeral_ne_none hnum)]

/-- Witness for C6 at the malformed token "a!" and the literal "12". -/
theorem C6_witness :
    (parseDimDtor "a!" = .error (dimFmtMsg "a!")) ∧
    (parseDimDtor "12" = .ok { type := "Mat", dims := Dims.dnum (digitsToNat "12".data) }) :=
  ⟨(C6_dim_zero_error "a!").2.1 (by decide) (by decide),
   (C6_dim_zero_error "12").2.2 (by decide)⟩

/-! ## Claim C2 -/

/-- C2: on every accepted shape, cvRank is the token count minus one, tfRank
adds one exactly for a structured multichannel data descriptor, hence
tfRank is at least cvRank with equality iff channels is 1 or the data
domain is primitive. -/
theorem C2_rank_metrics (shape : List String) (r : ParsedShape)
    (h : parseShape shape = .ok r) :
    r.cvRank = shape.length - 1 ∧
    r.tfRank = (if r.dataDtor.format = "cv" ∧ 1 < r.dataDtor.channels
                then r.cvRank + 1 else r.cvRank) ∧
    r.cvRank ≤ r.tfRank ∧
    (r.tfRank = r.cvRank ↔ (r.dataDtor.channels = 1 ∨ r.dataDtor.format = "std")) := by
  obtain ⟨d, dims, hne, hd, hdims, hbuild, hrd, hrdim, hcv, htf⟩ := parseShape_ok_parts h
  have hprops := parseDataDtor_props hd
  refine ⟨hcv, ?_, ?_, ?_⟩
  · rw [htf, hcv, hrd]
  · rw [htf, hcv]
    split <;> omega
  · rw [htf, hcv, hrd]
    constructor
    · intro heq
      split at heq
      · omega
      · rename_i hneg
        rcases hprops.1 with hcvf | hstd
        · left
          have hch := hprops.2
          by_contra hne1
          exact hneg ⟨hcvf, by omega⟩
        · right; exact hstd
    · intro hor
      rcases hor with h1 | hstd
      · rw [if_neg (by rintro ⟨-, hgt⟩; omega)]
      · rw [if_neg ?_]
        rintro ⟨hcvf, -⟩
        rw [hstd] at hcvf
        exact absurd hcvf (by decide)

/-- The parsed shape of the sample input used by the C2 witness. -/
def c2sample : ParsedShape :=
  { dataDtor := { format := "cv", dtype := "8U", channels := 2, ctype := some "Mat" },
    dimDtorArr := [{ type := "Mat", dims := Dims.dnone }],
    tfRank := 2, cvRank := 1, vecDims := 0, matDims := 1,
    matDimDtorArr := [{ type := "Mat", dims := Dims.dnone }],
    type := MAT, varMatDecStr := some "Mat", varDecStr := "Mat" }

/-- Witness for C2 on the shape [none, CV_8UC2]. -/
theorem C2_witness :
    parseShape ["none", "CV_8UC2"] = .ok c2sample ∧
    (c2sample.cvRank = ["none", "CV_8UC2"].length - 1 ∧
     c2sample.tfRank = (if c2sample.dataDtor.format = "cv" ∧ 1 < c2sample.dataDtor.channels
                        then c2sample.cvRank + 1 else c2sample.cvRank) ∧
     c2sample.cvRank ≤ c2sample.tfRank ∧
     (c2sample.tfRank = c2sample.cvRank ↔
       (c2sample.dataDtor.channels = 1 ∨ c2sample.dataDtor.format = "std"))) :=
  ⟨by decide, C2_rank_metrics ["none", "CV_8UC2"] c2sample (by decide)⟩

/-! ## Claim C10 -/

/-- C10: lastIndexOf returns the largest index whose element satisfies the
predicate, and -1 exactly when no element does.  In this pure embedding the
function is total, so it cannot throw or mutate its argument. -/
theorem C10_lastIndexOf_spec {α : Type} (arr : List α) (fn : α → Bool) :
    (lastIndexOf arr fn = -1 ↔
      ∀ i : Nat, ∀ h : i < arr.length, fn (arr.get ⟨i, h⟩) = false) ∧
    (∀ i : Nat, ∀ h : i < arr.length, fn (arr.get ⟨i, h⟩) = true →
      ∃ k : Nat, ∃ hk : k < arr.length, lastIndexOf arr fn = (k : Int) ∧
        fn (arr.get ⟨k, hk⟩) = true ∧ i ≤ k ∧
        ∀ j : Nat, ∀ hj : j < arr.length, k < j → fn (arr.get ⟨j, hj⟩) = false) := by
  constructor
  · constructor
    · intro hneg i h
      rcases lastIndexOf_char arr fn with ⟨-, hall⟩ | ⟨k, hk, heq, hfn, -⟩
      · exact hall _ (List.get_mem arr i h)
      · rw [heq] at hneg
        omega
    · intro hall
      rcases lastIndexOf_char arr fn with ⟨h1, -⟩ | ⟨k, hk, heq, hfn, -⟩
      · exact h1
      · exact absurd hfn (by rw [hall k hk]; decide)
  · intro i h hfn
    rcases lastIndexOf_char arr fn with ⟨-, hall⟩ | ⟨k, hk, heq, hfnk, hmax⟩
    · exact absurd hfn (by rw [hall _ (List.get_mem arr i h)]; decide)
    · refine ⟨k, hk, heq, hfnk, ?_, hmax⟩
      by_contra hik
      push_neg at hik
      exact absurd hfn (by rw [hmax i h hik]; decide)

/-- Witness for C10: on a list with no matching element the result is -1. -/
theorem C10_witness :
    lastIndexOf [0, 1, 0] (fun n => n == 2) = -1 :=
  (C10_lastIndexOf_spec [0, 1, 0] (fun n => n == 2)).1.mpr (by decide)

/-! ## Claim C7 -/

theorem getTfRank_eq {shape : List String} {d : DataDtor} (hne : shape.isEmpty = false)
    (hd : parseDataDtor (shape.getLastD "") = .ok d) :
    getTfRank shape = .ok (if d.format = "cv" then
        (if d.channels = 1 then shape.length - 1 else shape.length - 1 + 1)
      else shape.length - 1) := by
  unfold getTfRank
  rw [hne]
  simp only [Bool.false_eq_true, if_false]
  show Except.bind (parseDataDtor (shape.getLastD "")) _ = _
  rw [hd]
  show (if d.format = "cv" then _ else _) = _
  split
  · split <;> rfl
  · rfl

/-- On a nonempty token list, parseShape is its classification stage applied
to the parsed descriptors (given that both parses succeed). -/
theorem parseShape_concat_eq {dimToks : List String} {dTok : String} {d : DataDtor}
    {dims : List DimDtor} {tf : Nat}
    (hd : parseDataDtor dTok = .ok d)
    (hdims : mapE parseDimDtor dimToks = .ok dims)
    (htf : getTfRank (dimToks ++ [dTok]) = .ok tf) :
    parseShape (dimToks ++ [dTok]) = buildShape d dims tf dimToks.length := by
  unfold parseShape
  rw [if_neg (by simp), getLastD_concat, dropLast_concat_eq, hd, hdims, htf]
  have hcv : getCvRank (dimToks ++ [dTok]) = .ok dimToks.length := by
    unfold getCvRank
    rw [if_neg (by simp)]
    simp
  rw [hcv]
  rfl

theorem all_take_get {dims : List DimDtor} {k : Nat}
    (h : (dims.take k).all (fun it => it.type == "vector") = true)
    (i : Nat) (hi : i < dims.length) (hik : i < k) :
    (dims.get ⟨i, hi⟩).type = "vector" := by
  have hlen : i < (dims.take k).length := by simp; omega
  have hmem := List.get_mem (dims.take k) i hlen
  have := List.all_eq_true.1 h _ hmem
  simp only [List.get_eq_getElem] at this ⊢
  rw [List.getElem_take dims] at this
  simpa using this

theorem buildShape_prefix_error {d : DataDtor} {dims : List DimDtor} {tf cv : Nat}
    {i j : Nat} (hi : i < dims.length) (hj : j < dims.length) (hij : i < j)
    (hvj : (dims.get ⟨j, hj⟩).type = "vector")
    (hnvi : (dims.get ⟨i, hi⟩).type ≠ "vector") :
    buildShape d dims tf cv = .error matVectorMsg := by
  have hge : (j : Int) ≤ lastIndexOf dims (fun it => it.type == "vector") :=
    lastIndexOf_ge hj (by show ((dims.get ⟨j, hj⟩).type == "vector") = true; rw [hvj]; decide)
  simp only [buildShape]
  rw [if_pos]
  refine ⟨by omega, ?_⟩
  intro hall
  exact hnvi (all_take_get hall i hi (by omega))

theorem buildShape_ok_prefix {d : DataDtor} {dims : List DimDtor} {tf cv : Nat}
    {r : ParsedShape} (h : buildShape d dims tf cv = .ok r) (i : Nat)
    (hi : i < dims.length)
    (hlt : (i : Int) < lastIndexOf dims (fun it => it.type == "vector")) :
    (dims.get ⟨i, hi⟩).type = "vector" := by
  simp only [buildShape] at h
  split at h
  · simp at h
  · rename_i hcond
    rw [not_and_or] at hcond
    rcases hcond with h1 | h2
    · exact absurd (by omega : (-1 : Int) < lastIndexOf dims (fun it => it.type == "vector")) h1
    · rw [not_not] at h2
      refine all_take_get h2 i hi ?_
      omega

/-- C7: if some non-vector dimension descriptor precedes the last
vector-kind one, parseShape raises the structural error; conversely every
successfully classified shape has vector-kind descriptors everywhere before
its last vector index. -/
theorem C7_vector_front (dimToks : List String) (dTok : String)
    (d : DataDtor) (dims : List DimDtor)
    (hd : parseDataDtor dTok = .ok d)
    (hdims : mapE parseDimDtor dimToks = .ok dims) :
    (∀ i j : Nat, ∀ hi : i < dims.length, ∀ hj : j < dims.length, i < j →
      (dims.get ⟨j, hj⟩).type = "vector" → (dims.get ⟨i, hi⟩).type ≠ "vector" →
      parseShape (dimToks ++ [dTok]) = .error matVectorMsg) ∧
    (∀ r, parseShape (dimToks ++ [dTok]) = .ok r →
      ∀ i : Nat, ∀ hi : i < r.dimDtorArr.length,
        (i : Int) < lastIndexOf r.dimDtorArr (fun it => it.type == "vector") →
        (r.dimDtorArr.get ⟨i, hi⟩).type = "vector") := by
  have hne : (dimToks ++ [dTok]).isEmpty = false := by simp
  have htf := getTfRank_eq hne (by rw [getLastD_concat]; exact hd)
  constructor
  · intro i j hi hj hij hvj hnvi
    rw [parseShape_concat_eq hd hdims htf]
    exact buildShape_prefix_error hi hj hij hvj hnvi
  · intro r hr i hi hlt
    rw [parseShape_concat_eq hd hdims htf] at hr
    have hfields := buildShape_ok hr
    rw [← hfields.2.1] at hr
    exact buildShape_ok_prefix hr i hi hlt

/-- Witness for C7 at the Scenario E tokens ["3", "vector:10", CV_16U]. -/
theorem C7_witness :
    parseShape (["3", "vector:10"] ++ ["CV_16U"]) = .error matVectorMsg :=
  (C7_vector_front ["3", "vector:10"] "CV_16U"
      { format := "cv", dtype := "16U", channels := 1, ctype := some "Mat" }
      [{ type := "Mat", dims := Dims.dnum 3 }, { type := "vector", dims := Dims.dnum 10 }]
      (by decide) (by decide)).1
    0 1 (by decide) (by decide) (by decide) (by decide) (by decide)

/-! ## Claim C1 -/

theorem cvDataStep_depth {s : String} {p1 : List Char} {p2 : Option (List Char)} {d : DataDtor}
    (h : cvDataStep s p1 p2 = .ok d) : validDepth d.dtype = true := by
  unfold cvDataStep at h
  split at h
  case _ dep chs hmatch =>
    split at h
    · simp at h
    · split at h
      case isTrue => simp at h
      case isFalse hvd =>
        have hp := ctypeStep_ok h
        rw [hp.2.1]
        simpa using hvd
  case _ dep hmatch =>
    split at h
    case isTrue => simp at h
    case isFalse hvd =>
      have hp := ctypeStep_ok h
      rw [hp.2.1]
      simpa using hvd
  case _ => simp at h

theorem parseDataDtor_cv_depth {s : String} {d : DataDtor} (h : parseDataDtor s = .ok d)
    (hcv : d.format = "cv") : validDepth d.dtype = true := by
  unfold parseDataDtor at h
  split at h
  · exact cvDataStep_depth h
  · split at h
    · injection h with h
      subst h
      simp at hcv
    · simp at h

theorem cvToStd_ok_of_valid {t : String} (h : validDepth t = true) :
    ∃ s2, cvToStd t = .ok s2 := by
  unfold cvToStd
  split_ifs <;> first
    | exact ⟨_, rfl⟩
    | (exfalso; unfold validDepth at h; simp_all)

theorem take_all_vector_of_front {dims : List DimDtor}
    (hpre : ∀ i : Nat, ∀ hi : i < dims.length,
      ((dims.get ⟨i, hi⟩).type = "vector" ↔
        i < dims.countP (fun it => it.type == "vector")))
    {k : Nat} (hk : k ≤ dims.countP (fun it => it.type == "vector")) :
    (dims.take k).all (fun it => it.type == "vector") = true := by
  rw [List.all_eq_true]
  intro a ha
  obtain ⟨⟨i, hi⟩, rfl⟩ := List.mem_iff_get.1 ha
  have hik : i < k := by
    have := hi
    simp at this
    omega
  have hilen : i < dims.length := by
    have := hi
    simp at this
    omega
  have heq : (dims.take k).get ⟨i, hi⟩ = dims.get ⟨i, hilen⟩ := by
    simp only [List.get_eq_getElem]
    exact List.getElem_take dims
  rw [heq]
  have h3 := (hpre i hilen).2 (by omega)
  simp only [List.get_eq_getElem] at h3
  simp [h3]

theorem countP_le_len (dims : List DimDtor) :
    dims.countP (fun it => it.type == "vector") ≤ dims.length :=
  List.countP_le_length _

theorem lastVec_of_prefix {dims : List DimDtor}
    (hpre : ∀ i : Nat, ∀ hi : i < dims.length,
      ((dims.get ⟨i, hi⟩).type = "vector" ↔
        i < dims.countP (fun it => it.type == "vector"))) :
    lastIndexOf dims (fun it => it.type == "vector") =
      (dims.countP (fun it => it.type == "vector") : Int) - 1 := by
  have hvlen := countP_le_len dims
  cases hv : dims.countP (fun it => it.type == "vector") with
  | zero =>
    rcases lastIndexOf_char dims (fun it => it.type == "vector") with ⟨h1, -⟩ |
      ⟨k, hk, heq, hfn, -⟩
    · rw [h1]; simp
    · have := (hpre k hk).1 (by simpa using hfn)
      omega
  | succ w =>
    have hwlen : w < dims.length := by omega
    rcases lastIndexOf_char dims (fun it => it.type == "vector") with ⟨-, hall⟩ |
      ⟨k, hk, heq, hfn, hmax⟩
    · have hvw := (hpre w hwlen).2 (by omega)
      have h2 := hall _ (List.get_mem dims w hwlen)
      simp only [List.get_eq_getElem] at hvw h2
      rw [hvw] at h2
      simp at h2
    · have hkv : k < w + 1 := by
        have := (hpre k hk).1 (by simpa using hfn)
        omega
      have hkw : k = w := by
        by_contra hne
        have hklt : k < w := by omega
        have hfw := hmax w hwlen hklt
        have h2 := (hpre w hwlen).2 (by omega)
        simp only [List.get_eq_getElem] at hfw h2
        rw [h2] at hfw
        simp at hfw
      subst hkw
      rw [heq]
      omega

theorem vecMatDecStr_ok {d : DataDtor} {matDims : Nat} {arr : List DimDtor}
    (hdep : validDepth d.dtype = true)
    (hnone : (d.ctype.getD "Mat" = "Matx" ∨ d.ctype.getD "Mat" = "Vec") →
      ∀ e ∈ arr, e.dims ≠ Dims.dnone)
    (hvec1 : d.ctype.getD "Mat" = "Vec" → matDims ≤ 1) :
    ∃ m, vecMatDecStr d matDims arr = .ok m := by
  unfold vecMatDecStr vecMatDecStrCore
  split
  case isTrue hkind =>
    rw [if_neg ?hany]
    case hany =>
      intro hany
      rw [List.any_eq_true] at hany
      obtain ⟨e, he, hde⟩ := hany
      exact hnone hkind e he (by simpa using hde)
    rw [if_neg ?hv1]
    case hv1 =>
      rintro ⟨hgt, hvec⟩
      have := hvec1 hvec
      omega
    obtain ⟨s2, hs2⟩ := cvToStd_ok_of_valid hdep
    rw [hs2]
    exact ⟨_, rfl⟩
  case isFalse => exact ⟨_, rfl⟩

/-- Number of vector-kind dimension descriptors. -/
def vecKindCount (dims : List DimDtor) : Nat :=
  dims.countP (fun it => it.type == "vector")

/-- C1 (amended): the classification table of parseShape over (vector-dim
count, rank, data domain), for token lists whose vector-kind dims form a
contiguous prefix and whose fixed-container constraints hold.  The original
claim omits those two provisos; without them the structural errors of C7 and
C8 preempt the classification (see the counterexample). -/
theorem C1_classification (dimToks : List String) (dTok : String)
    (d : DataDtor) (dims : List DimDtor)
    (hd : parseDataDtor dTok = .ok d)
    (hdims : mapE parseDimDtor dimToks = .ok dims)
    (hpre : ∀ i : Nat, ∀ hi : i < dims.length,
      ((dims.get ⟨i, hi⟩).type = "vector" ↔ i < vecKindCount dims))
    (hfixed : (d.ctype.getD "Mat" = "Matx" ∨ d.ctype.getD "Mat" = "Vec") →
      (∀ e ∈ dims.drop (vecKindCount dims), e.dims ≠ Dims.dnone) ∧
      (d.ctype.getD "Mat" = "Vec" → dims.length - vecKindCount dims ≤ 1)) :
    (1 ≤ vecKindCount dims → vecKindCount dims = dims.length →
      ((d.format = "std" →
          ∃ r, parseShape (dimToks ++ [dTok]) = .ok r ∧ r.type = VEC_OF_PRIM) ∧
       (d.format = "cv" → parseShape (dimToks ++ [dTok]) = .error vectorCvMsg))) ∧
    (1 ≤ vecKindCount dims → vecKindCount dims < dims.length →
      ((d.format = "cv" →
          ∃ r, parseShape (dimToks ++ [dTok]) = .ok r ∧ r.type = VEC_OF_MAT) ∧
       (d.format = "std" → parseShape (dimToks ++ [dTok]) = .error matPrimMsg))) ∧
    (vecKindCount dims = 0 →
      (((d.format = "cv" → 1 ≤ dims.length →
           ∃ r, parseShape (dimToks ++ [dTok]) = .ok r ∧ r.type = MAT) ∧
        (d.format = "cv" → dims.length = 0 →
           parseShape (dimToks ++ [dTok]) = .error scalarCvMsg)) ∧
       ((d.format = "std" → dims.length = 0 →
           ∃ r, parseShape (dimToks ++ [dTok]) = .ok r ∧ r.type = SCALAR) ∧
        (d.format = "std" → 1 ≤ dims.length →
           parseShape (dimToks ++ [dTok]) = .error matPrimMsg)))) := by
  simp only [vecKindCount] at hpre hfixed ⊢
  have hlen : dims.length = dimToks.length := mapE_length hdims
  have hne : (dimToks ++ [dTok]).isEmpty = false := by simp
  have htf := getTfRank_eq hne (by rw [getLastD_concat]; exact hd)
  have hlast := lastVec_of_prefix hpre
  have hps := parseShape_concat_eq hd hdims htf
  have h1 : ((dims.countP (fun it => it.type == "vector") : Int) - 1 + 1).toNat =
      dims.countP (fun it => it.type == "vector") := by omega
  have hchk : ¬((lastIndexOf dims (fun item => item.type == "vector") > -1) ∧
      ¬ ((dims.take (lastIndexOf dims (fun item => item.type == "vector")).toNat).all
          (fun item => item.type == "vector") = true)) := by
    rintro ⟨hgt, hnall⟩
    refine hnall (take_all_vector_of_front hpre ?_)
    rw [hlast]
    omega
  refine ⟨?_, ?_, ?_⟩
  · intro hv1 hveq
    constructor
    · intro hstd
      rw [hps]
      simp only [buildShape]
      rw [if_neg hchk, hlast, h1, if_pos (by omega : ((dims.countP
        (fun it => it.type == "vector") : Int) - 1) ≠ -1),
        if_pos (by omega : dims.countP (fun it => it.type == "vector") = dimToks.length),
        hstd, if_neg (by decide : ¬ ("std" : String) = "cv")]
      exact ⟨_, rfl, rfl⟩
    · intro hcv
      rw [hps]
      simp only [buildShape]
      rw [if_neg hchk, hlast, h1, if_pos (by omega : ((dims.countP
        (fun it => it.type == "vector") : Int) - 1) ≠ -1),
        if_pos (by omega : dims.countP (fun it => it.type == "vector") = dimToks.length),
        hcv, if_pos rfl]
  · intro hv1 hvlt
    constructor
    · intro hcv
      have hm : ∃ m, vecMatDecStr d
          (dimToks.length - dims.countP (fun it => it.type == "vector"))
          (dims.drop (dims.countP (fun it => it.type == "vector"))) = .ok m := by
        refine vecMatDecStr_ok (parseDataDtor_cv_depth hd hcv) ?_ ?_
        · intro hk e he
          exact (hfixed hk).1 e he
        · intro hv
          have := (hfixed (Or.inr hv)).2 hv
          omega
      obtain ⟨m, hm⟩ := hm
      rw [hps]
      simp only [buildShape]
      rw [if_neg hchk, hlast, h1, if_pos (by omega : ((dims.countP
        (fun it => it.type == "vector") : Int) - 1) ≠ -1),
        if_neg (by omega : ¬ dims.countP (fun it => it.type == "vector") = dimToks.length),
        hcv, if_neg (by simp), hm]
      exact ⟨_, rfl, rfl⟩
    · intro hstd
      rw [hps]
      simp only [buildShape]
      rw [if_neg hchk, hlast, h1, if_pos (by omega : ((dims.countP
        (fun it => it.type == "vector") : Int) - 1) ≠ -1),
        if_neg (by omega : ¬ dims.countP (fun it => it.type == "vector") = dimToks.length),
        hstd, if_pos (by decide : ¬ ("std" : String) = "cv")]
  · intro hv0
    refine ⟨⟨?_, ?_⟩, ?_, ?_⟩
    · intro hcv hn1
      have hm : ∃ m, vecMatDecStr d
          (dimToks.length - dims.countP (fun it => it.type == "vector"))
          (dims.drop (dims.countP (fun it => it.type == "vector"))) = .ok m := by
        refine vecMatDecStr_ok (parseDataDtor_cv_depth hd hcv) ?_ ?_
        · intro hk e he
          exact (hfixed hk).1 e he
        · intro hv
          have := (hfixed (Or.inr hv)).2 hv
          omega
      obtain ⟨m, hm⟩ := hm
      rw [hps]
      simp only [buildShape]
      rw [if_neg hchk, hlast, hv0, if_neg (by omega : ¬ (((0 : Nat) : Int) - 1) ≠ -1)]
      rw [show (((0 : Nat) : Int) - 1 + 1).toNat = dims.countP
        (fun it => it.type == "vector") from by omega]
      rw [hcv, if_pos rfl, if_neg (by omega : ¬ dimToks.length = 0), hm]
      exact ⟨_, rfl, rfl⟩
    · intro hcv hn0
      rw [hps]
      simp only [buildShape]
      rw [if_neg hchk, hlast, hv0, if_neg (by omega : ¬ (((0 : Nat) : Int) - 1) ≠ -1)]
      rw [hcv, if_pos rfl, if_pos (by omega : dimToks.length = 0)]
    · intro hstd hn0
      rw [hps]
      simp only [buildShape]
      rw [if_neg hchk, hlast, hv0, if_neg (by omega : ¬ (((0 : Nat) : Int) - 1) ≠ -1)]
      rw [hstd, if_neg (by decide : ¬ ("std" : String) = "cv"),
        if_neg (by omega : ¬ dimToks.length > 0)]
      exact ⟨_, rfl, rfl⟩
    · intro hstd hn1
      rw [hps]
      simp only [buildShape]
      rw [if_neg hchk, hlast, hv0, if_neg (by omega : ¬ (((0 : Nat) : Int) - 1) ≠ -1)]
      rw [hstd, if_neg (by decide : ¬ ("std" : String) = "cv"),
        if_pos (by omega : dimToks.length > 0)]

/-- Counterexample to C1 as stated: the tokens of Scenario E all parse, have
exactly one vector-kind and one block-kind dimension and a structured data
token, yet parseShape raises the structural contiguity error instead of
classifying the shape as VEC_OF_MAT. -/
theorem C1_counterexample :
    parseDataDtor "CV_16U" =
      .ok { format := "cv", dtype := "16U", channels := 1, ctype := some "Mat" } ∧
    mapE parseDimDtor ["3", "vector:10"] =
      .ok [{ type := "Mat", dims := Dims.dnum 3 },
           { type := "vector", dims := Dims.dnum 10 }] ∧
    vecKindCount [{ type := "Mat", dims := Dims.dnum 3 },
                  { type := "vector", dims := Dims.dnum 10 }] = 1 ∧
    parseShape ["3", "vector:10", "CV_16U"] = .error matVectorMsg := by
  refine ⟨by decide, by decide, by decide, by decide⟩

/-- Witness for C1 on the all-vector structured case. -/
theorem C1_witness :
    parseShape (["vector:none"] ++ ["CV_32S"]) = .error vectorCvMsg :=
  ((C1_classification ["vector:none"] "CV_32S"
      { format := "cv", dtype := "32S", channels := 1, ctype := some "Mat" }
      [{ type := "vector", dims := Dims.dnone }]
      (by decide) (by decide) (by decide) (by decide)).1 (by decide) (by decide)).2 (by decide)

/-! ## Claim C8 -/

theorem ctype_getD_fixed {d : DataDtor} (h : d.ctype = some "Matx" ∨ d.ctype = some "Vec") :
    d.ctype.getD "Mat" = "Matx" ∨ d.ctype.getD "Mat" = "Vec" := by
  rcases h with h | h <;> simp [h]

theorem vecMatDecStr_dnone {d : DataDtor} {matDims : Nat} {arr : List DimDtor}
    (hctype : d.ctype = some "Matx" ∨ d.ctype = some "Vec")
    (h : ∃ e ∈ arr, e.dims = Dims.dnone) :
    vecMatDecStr d matDims arr = .error dynStaticMsg := by
  unfold vecMatDecStr vecMatDecStrCore
  obtain ⟨e, he, hde⟩ := h
  rw [if_pos (ctype_getD_fixed hctype), if_pos]
  rw [List.any_eq_true]
  exact ⟨e, he, by simp [hde]⟩

theorem vecMatDecStr_vec_multi {d : DataDtor} {matDims : Nat} {arr : List DimDtor}
    (hvec : d.ctype = some "Vec")
    (hnone : ∀ e ∈ arr, e.dims ≠ Dims.dnone)
    (hgt : 1 < matDims) :
    vecMatDecStr d matDims arr = .error vecOneDimMsg := by
  unfold vecMatDecStr vecMatDecStrCore
  rw [if_pos (ctype_getD_fixed (Or.inr hvec))]
  rw [if_neg ?hany]
  case hany =>
    intro hany
    rw [List.any_eq_true] at hany
    obtain ⟨e, he, hde⟩ := hany
    exact hnone e he (by simpa using hde)
  rw [if_pos ⟨hgt, by simp [hvec]⟩]

theorem matDimsText_eq (ctype : String) (matDims : Nat) (arr : List DimDtor) :
    matDimsText ctype matDims arr =
      (if ctype = "Matx" ∧ matDims = 1 then "1, " else "") ++
        joinSep ", " (arr.map (fun e => dimsStr e.dims)) := by
  unfold matDimsText
  split
  · rfl
  · simp

theorem vecMatDecStr_val {d : DataDtor} {matDims : Nat} {arr : List DimDtor} {scalarT : String}
    (hctype : d.ctype = some "Matx" ∨ d.ctype = some "Vec")
    (hnone : ∀ e ∈ arr, e.dims ≠ Dims.dnone)
    (hv1 : d.ctype.getD "Mat" = "Vec" → matDims ≤ 1)
    (hscalar : cvToStd d.dtype = .ok scalarT) :
    vecMatDecStr d matDims arr = .ok (d.ctype.getD "Mat" ++ "<" ++ scalarT ++ ", " ++
      matDimsText (d.ctype.getD "Mat") matDims arr ++ ">") := by
  unfold vecMatDecStr vecMatDecStrCore
  rw [if_pos (ctype_getD_fixed hctype)]
  rw [if_neg ?hany]
  case hany =>
    intro hany
    rw [List.any_eq_true] at hany
    obtain ⟨e, he, hde⟩ := hany
    exact hnone e he (by simpa using hde)
  rw [if_neg ?hvec]
  case hvec =>
    rintro ⟨hgt, hvec⟩
    have := hv1 hvec
    omega
  rw [hscalar]

/-- The parsed shape of the Scenario D tokens. -/
def c8sample : ParsedShape :=
  { dataDtor := { format := "cv", dtype := "32F", channels := 1, ctype := some "Matx" },
    dimDtorArr := [{ type := "Mat", dims := Dims.dnum 3 }, { type := "Mat", dims := Dims.dnum 3 }],
    tfRank := 2, cvRank := 2, vecDims := 0, matDims := 2,
    matDimDtorArr :=
      [{ type := "Mat", dims := Dims.dnum 3 }, { type := "Mat", dims := Dims.dnum 3 }],
    type := MAT, varMatDecStr := some "Matx<float, 3, 3>", varDecStr := "Matx<float, 3, 3>" }

/-- C8: for MAT or VEC_OF_MAT shapes whose data descriptor carries the
static container kind Matx or Vec, classification fails on an unknown
block-suffix size, fails for multi-dimensional Vec, and otherwise the
per-element declaration is the container kind applied to the mapped scalar
type and the literal sizes (with a leading 1 for one-dimensional Matx);
Scenario D produces declaration text Matx<float, 3, 3>. -/
theorem C8_static_container (dimToks : List String) (dTok : String)
    (d : DataDtor) (dims : List DimDtor)
    (hd : parseDataDtor dTok = .ok d)
    (hdims : mapE parseDimDtor dimToks = .ok dims)
    (hpre : ∀ i : Nat, ∀ hi : i < dims.length,
      ((dims.get ⟨i, hi⟩).type = "vector" ↔ i < vecKindCount dims))
    (hcv : d.format = "cv")
    (hctype : d.ctype = some "Matx" ∨ d.ctype = some "Vec")
    (hvlt : vecKindCount dims < dims.length) :
    ((∃ e ∈ dims.drop (vecKindCount dims), e.dims = Dims.dnone) →
      parseShape (dimToks ++ [dTok]) = .error dynStaticMsg) ∧
    ((∀ e ∈ dims.drop (vecKindCount dims), e.dims ≠ Dims.dnone) →
      d.ctype = some "Vec" → 1 < dims.length - vecKindCount dims →
      parseShape (dimToks ++ [dTok]) = .error vecOneDimMsg) ∧
    ((∀ e ∈ dims.drop (vecKindCount dims), e.dims ≠ Dims.dnone) →
      (d.ctype.getD "Mat" = "Vec" → dims.length - vecKindCount dims ≤ 1) →
      ∀ scalarT, cvToStd d.dtype = .ok scalarT →
      ∃ r, parseShape (dimToks ++ [dTok]) = .ok r ∧
        (r.type = MAT ∨ r.type = VEC_OF_MAT) ∧
        r.varMatDecStr = some (d.ctype.getD "Mat" ++ "<" ++ scalarT ++ ", " ++
          ((if d.ctype.getD "Mat" = "Matx" ∧ dims.length - vecKindCount dims = 1
            then "1, " else "") ++
           joinSep ", " ((dims.drop (vecKindCount dims)).map (fun e => dimsStr e.dims))) ++
          ">")) ∧
    (parseShape ["3", "3", "CV_32F:Matx"] = .ok c8sample ∧
      c8sample.type = MAT ∧ c8sample.varDecStr = "Matx<float, 3, 3>") := by
  simp only [vecKindCount] at hpre hvlt ⊢
  have hlen : dims.length = dimToks.length := mapE_length hdims
  have hne : (dimToks ++ [dTok]).isEmpty = false := by simp
  have htf := getTfRank_eq hne (by rw [getLastD_concat]; exact hd)
  have hlast := lastVec_of_prefix hpre
  have hps := parseShape_concat_eq hd hdims htf
  have h1 : ((dims.countP (fun it => it.type == "vector") : Int) - 1 + 1).toNat =
      dims.countP (fun it => it.type == "vector") := by omega
  have hchk : ¬((lastIndexOf dims (fun item => item.type == "vector") > -1) ∧
      ¬ ((dims.take (lastIndexOf dims (fun item => item.type == "vector")).toNat).all
          (fun item => item.type == "vector") = true)) := by
    rintro ⟨hgt, hnall⟩
    refine hnall (take_all_vector_of_front hpre ?_)
    rw [hlast]
    omega
  have key : ∀ res : Except String String,
      vecMatDecStr d (dims.length - dims.countP (fun it => it.type == "vector"))
        (dims.drop (dims.countP (fun it => it.type == "vector"))) = res →
      (∀ msg, res = .error msg → parseShape (dimToks ++ [dTok]) = .error msg) ∧
      (∀ m, res = .ok m → ∃ r, parseShape (dimToks ++ [dTok]) = .ok r ∧
        (r.type = MAT ∨ r.type = VEC_OF_MAT) ∧ r.varMatDecStr = some m) := by
    intro res hres
    rw [hlen] at hres
    rcases Nat.eq_zero_or_pos (dims.countP (fun it => it.type == "vector")) with hv0 | hv1
    · constructor
      · intro msg hmsg
        rw [hps]
        simp only [buildShape]
        rw [if_neg hchk, hlast, hv0, if_neg (by omega : ¬ (((0 : Nat) : Int) - 1) ≠ -1)]
        rw [show (((0 : Nat) : Int) - 1 + 1).toNat = dims.countP
          (fun it => it.type == "vector") from by omega]
        rw [hcv, if_pos rfl, if_neg (by omega : ¬ dimToks.length = 0), hres, hmsg]
        rfl
      · intro m hm
        rw [hps]
        simp only [buildShape]
        rw [if_neg hchk, hlast, hv0, if_neg (by omega : ¬ (((0 : Nat) : Int) - 1) ≠ -1)]
        rw [show (((0 : Nat) : Int) - 1 + 1).toNat = dims.countP
          (fun it => it.type == "vector") from by omega]
        rw [hcv, if_pos rfl, if_neg (by omega : ¬ dimToks.length = 0), hres, hm]
        exact ⟨_, rfl, Or.inl rfl, rfl⟩
    · constructor
      · intro msg hmsg
        rw [hps]
        simp only [buildShape]
        rw [if_neg hchk, hlast, h1, if_pos (by omega : ((dims.countP
          (fun it => it.type == "vector") : Int) - 1) ≠ -1),
          if_neg (by omega : ¬ dims.countP (fun it => it.type == "vector") = dimToks.length),
          hcv, if_neg (by simp), hres, hmsg]
        rfl
      · intro m hm
        rw [hps]
        simp only [buildShape]
        rw [if_neg hchk, hlast, h1, if_pos (by omega : ((dims.countP
          (fun it => it.type == "vector") : Int) - 1) ≠ -1),
          if_neg (by omega : ¬ dims.countP (fun it => it.type == "vector") = dimToks.length),
          hcv, if_neg (by simp), hres, hm]
        exact ⟨_, rfl, Or.inr rfl, rfl⟩
  refine ⟨?_, ?_, ?_, by decide, by decide, by decide⟩
  · intro hex
    exact ((key _ rfl).1 dynStaticMsg (vecMatDecStr_dnone hctype hex)).symm ▸
      ((key _ (vecMatDecStr_dnone hctype hex)).1 dynStaticMsg rfl)
  · intro hnone hvec hgt
    exact (key _ (vecMatDecStr_vec_multi hvec hnone (by omega))).1 vecOneDimMsg rfl
  · intro hnone hv1 scalarT hscalar
    obtain ⟨r, hr, hty, hvm⟩ :=
      (key _ (vecMatDecStr_val hctype hnone hv1 hscalar)).2 _ rfl
    refine ⟨r, hr, hty, ?_⟩
    rw [hvm, matDimsText_eq]

/-- Witness for C8 on the multi-dimensional Vec error case. -/
theorem C8_witness :
    parseShape (["3", "3"] ++ ["CV_32F:Vec"]) = .error vecOneDimMsg :=
  (C8_static_container ["3", "3"] "CV_32F:Vec"
      { format := "cv", dtype := "32F", channels := 1, ctype := some "Vec" }
      [{ type := "Mat", dims := Dims.dnum 3 }, { type := "Mat", dims := Dims.dnum 3 }]
      (by decide) (by decide) (by decide) (by decide) (by decide) (by decide)).2.1
    (by decide) (by decide) (by decide)

/-! ## Claim C5

The spec-side grammar of the data token.  The original claim reads the
token as (primitive name) or CV_(depth)[C(channels)] with an optional whole
suffix among Mat, Matx, Vec; the source, however, splits on every colon and
inspects only the second segment, ignoring the rest and treating an empty
second segment as absent. -/

/-- Whether a result is a success. -/
def isOkB : Except ε α → Bool
  | .ok _ => true
  | .error _ => false

/-- The four primitive type names. -/
def isPrimTok (s : String) : Bool :=
  s = "char" || s = "int" || s = "float" || s = "double"

/-- Spec-side channel part: absent (1 channel) or C followed by one digit
between 1 and 4. -/
def chanSpec : List Char → Option Nat
  | [] => some 1
  | 'C' :: [c] => if 49 ≤ c.toNat ∧ c.toNat ≤ 52 then some (c.toNat - 48) else none
  | _ => none

/-- Spec-side depth-and-channel grammar after the CV_ prefix: one of the
seven recognized depth codes followed by the channel part. -/
def depthSpec : List Char → Option (String × Nat)
  | '8' :: 'U' :: r => (chanSpec r).map (fun ch => ("8U", ch))
  | '8' :: 'S' :: r => (chanSpec r).map (fun ch => ("8S", ch))
  | '1' :: '6' :: 'U' :: r => (chanSpec r).map (fun ch => ("16U", ch))
  | '1' :: '6' :: 'S' :: r => (chanSpec r).map (fun ch => ("16S", ch))
  | '3' :: '2' :: 'S' :: r => (chanSpec r).map (fun ch => ("32S", ch))
  | '3' :: '2' :: 'F' :: r => (chanSpec r).map (fun ch => ("32F", ch))
  | '6' :: '4' :: 'F' :: r => (chanSpec r).map (fun ch => ("64F", ch))
  | _ => none

/-- Spec-side depth-and-channel segment: CV_ prefix then depthSpec. -/
def cvDepthChan : List Char → Option (String × Nat)
  | 'C' :: 'V' :: '_' :: tl => depthSpec tl
  | _ => none

/-- The data-token language as the original claim states it: a primitive
name, or a structured segment optionally followed by one whole suffix
among Mat, Matx, Vec (Matx and Vec only with one channel). -/
def claimedDataTok (s : String) : Bool :=
  isPrimTok s ||
  (match splitCh ':' s.data with
   | [p1] => (cvDepthChan p1).isSome
   | [p1, p2] =>
     match cvDepthChan p1 with
     | some (_, ch) =>
       p2 = "Mat".data || ((p2 = "Matx".data || p2 = "Vec".data) && ch = 1)
     | none => false
   | _ => false)

/-- The acceptance condition on the first two colon-segments as the source
actually implements it: segments beyond the second are ignored and an empty
second segment counts as absent. -/
def cvAmendedRhs (p1 : List Char) (p2 : Option (List Char)) : Bool :=
  match cvDepthChan p1 with
  | some (_, ch) =>
    match p2 with
    | none => true
    | some p =>
      if p = [] then true
      else if p = "Mat".data then true
      else if p = "Matx".data ∨ p = "Vec".data then ch = 1
      else false
  | none => false

/-- The amended data-token language. -/
def dataTokAmended (s : String) : Bool :=
  isPrimTok s ||
  (startsList "CV".data s.data &&
    cvAmendedRhs ((splitCh ':' s.data).headD []) (splitCh ':' s.data)[1]?)

/-- Counterexample to C5 as stated: a token with trailing junk after the
container-kind segment is outside the claimed grammar yet parses fine,
because the source splits on every colon and ignores all segments past the
second. -/
theorem C5_counterexample :
    parseDataDtor "CV_32F:Mat:junk" =
      .ok { format := "cv", dtype := "32F", channels := 1, ctype := some "Mat" } ∧
    claimedDataTok "CV_32F:Mat:junk" = false := by
  refine ⟨by decide, by decide⟩

theorem startsCV_shape {l : List Char} (h : startsList "CV_".data l = true) :
    l = 'C' :: 'V' :: '_' :: l.drop 3 := by
  have h' : startsList ['C', 'V', '_'] l = true := h
  rcases l with _ | ⟨a, _ | ⟨b, _ | ⟨c, tl⟩⟩⟩
  · simp [startsList] at h'
  · simp [startsList] at h'
  · simp [startsList] at h'
  · simp only [startsList, Bool.and_eq_true, decide_eq_true_eq] at h'
    obtain ⟨h1, h2, h3, -⟩ := h'
    subst h1
    subst h2
    subst h3
    rfl

theorem append_single_two {ds : List Char} {u a b : Char} (h : ds ++ [u] = [a, b]) :
    ds = [a] ∧ u = b := by
  rcases ds with _ | ⟨x, _ | ⟨y, ys⟩⟩ <;> simp_all

theorem append_single_three {ds : List Char} {u a b c : Char}
    (h : ds ++ [u] = [a, b, c]) : ds = [a, b] ∧ u = c := by
  rcases ds with _ | ⟨x, _ | ⟨y, _ | ⟨z, zs⟩⟩⟩ <;> simp_all

theorem digitsToNat_single (c : Char) : digitsToNat [c] = c.toNat - 48 := by
  simp [digitsToNat]

theorem digitsToNat_two_ge {c d : Char} (rest : List Char)
    (h : numeralNoLead (c :: d :: rest) = true) : 10 ≤ digitsToNat (c :: d :: rest) := by
  simp only [numeralNoLead, List.all_cons, isDigitCh, Bool.and_eq_true,
    decide_eq_true_eq] at h
  obtain ⟨⟨hc1, hc2⟩, ⟨hd1, hd2⟩, hrest⟩ := h
  have h1 : 10 ≤ (0 * 10 + (c.toNat - 48)) * 10 + (d.toNat - 48) := by omega
  calc 10 ≤ (0 * 10 + (c.toNat - 48)) * 10 + (d.toNat - 48) := h1
    _ ≤ digitsToNat (c :: d :: rest) := by
        simp only [digitsToNat, List.foldl_cons]
        exact foldl_digits_ge rest _

theorem numeral_all_digits {l : List Char} (h : numeralNoLead l = true) :
    l.all isDigitCh = true := by
  cases l with
  | nil => simp [numeralNoLead] at h
  | cons c cs =>
    simp only [numeralNoLead, Bool.and_eq_true, decide_eq_true_eq] at h
    simp only [List.all_cons, Bool.and_eq_true]
    refine ⟨?_, h.2⟩
    simp only [isDigitCh, Bool.and_eq_true, decide_eq_true_eq]
    omega

theorem isDigit_usf {u : Char} (hu : u = 'U' ∨ u = 'S' ∨ u = 'F') :
    isDigitCh u = false := by
  rcases hu with rfl | rfl | rfl <;> decide

theorem takeWhile_split {l r : List Char} (h : l.all isDigitCh = true)
    (hr : ∀ x xs, r = x :: xs → isDigitCh x = false) :
    (l ++ r).takeWhile isDigitCh = l ∧ (l ++ r).dropWhile isDigitCh = r := by
  induction l with
  | nil =>
    cases r with
    | nil => simp
    | cons x xs =>
      have hx := hr x xs rfl
      simp [List.takeWhile_cons, List.dropWhile_cons, hx]
  | cons a as ih =>
    simp only [List.all_cons, Bool.and_eq_true] at h
    obtain ⟨ha, has⟩ := h
    have := ih has
    simp [List.takeWhile_cons, List.dropWhile_cons, ha, this.1, this.2]

/-- depthChanMatch on a well-formed segment without a channel part. -/
theorem depthChanMatch_build2 (ds : List Char) (u : Char)
    (hds : numeralNoLead ds = true) (hu : u = 'U' ∨ u = 'S' ∨ u = 'F') :
    depthChanMatch (('C' :: 'V' :: '_' :: ds) ++ [u]) =
      some (strOf (ds ++ [u]), Option.none) := by
  have hsplit := takeWhile_split (l := ds) (r := [u]) (numeral_all_digits hds)
    (by
      intro x xs hx
      injection hx with h1 h2
      rw [← h1]
      exact isDigit_usf hu)
  unfold depthChanMatch
  rw [if_pos (show startsList "CV_".data (('C' :: 'V' :: '_' :: ds) ++ [u]) = true from rfl)]
  have hdrop : (('C' :: 'V' :: '_' :: ds) ++ [u]).drop 3 = ds ++ [u] := rfl
  rw [hdrop, hsplit.1, hsplit.2]
  unfold depthTail
  rw [if_pos hds]
  show (if u = 'U' ∨ u = 'S' ∨ u = 'F' then some (strOf (ds ++ [u]), Option.none)
      else none) = some (strOf (ds ++ [u]), Option.none)
  rw [if_pos hu]

/-- depthChanMatch on a well-formed segment with a channel part. -/
theorem depthChanMatch_build (ds : List Char) (u : Char) (chs : List Char)
    (hds : numeralNoLead ds = true) (hu : u = 'U' ∨ u = 'S' ∨ u = 'F')
    (hchs : numeralNoLead chs = true) :
    depthChanMatch (('C' :: 'V' :: '_' :: ds) ++ u :: 'C' :: chs) =
      some (strOf (ds ++ [u]), some chs) := by
  have hsplit := takeWhile_split (l := ds) (r := u :: 'C' :: chs) (numeral_all_digits hds)
    (by
      intro x xs hx
      injection hx with h1 h2
      rw [← h1]
      exact isDigit_usf hu)
  unfold depthChanMatch
  rw [if_pos (show startsList "CV_".data (('C' :: 'V' :: '_' :: ds) ++ u :: 'C' :: chs) = true
    from rfl)]
  have hdrop : (('C' :: 'V' :: '_' :: ds) ++ u :: 'C' :: chs).drop 3 = ds ++ u :: 'C' :: chs :=
    rfl
  rw [hdrop, hsplit.1, hsplit.2]
  unfold depthTail
  rw [if_pos hds]
  show (if (u = 'U' ∨ u = 'S' ∨ u = 'F') ∧ numeralNoLead chs then
      some (strOf (ds ++ [u]), some chs) else none) = some (strOf (ds ++ [u]), some chs)
  rw [if_pos ⟨hu, hchs⟩]

/-- When the implementation regexes match with a valid depth and an in-range
channel count, the spec-side grammar recognizes the segment with the same
depth and channel value. -/
theorem depth_impl_to_spec {p1 : List Char} {dep : String} {chsOpt : Option (List Char)}
    (him : depthChanMatch p1 = some (dep, chsOpt)) (hval : validDepth dep = true) :
    (chsOpt = Option.none → cvDepthChan p1 = some (dep, 1)) ∧
    (∀ chs, chsOpt = some chs → digitsToNat chs ≤ 4 →
      cvDepthChan p1 = some (dep, digitsToNat chs)) := by
  unfold depthChanMatch at him
  split at him
  case isFalse => exact absurd him (by simp)
  case isTrue hCV =>
    have hp1 := startsCV_shape hCV
    unfold depthTail at him
    split at him
    case isFalse => exact absurd him (by simp)
    case isTrue hnum =>
      split at him
      · -- the branch where the remainder is a single letter
        rename_i u hrest
        split at him
        case isFalse => exact absurd him (by simp)
        case isTrue hu =>
          rw [Option.some.injEq, Prod.mk.injEq] at him
          obtain ⟨hdep, hchs⟩ := him
          subst hchs
          refine ⟨fun _ => ?_, fun chs hc => absurd hc (by simp)⟩
          rw [← hdep]
          rw [← hdep] at hval
          have hlist : (p1.drop 3).takeWhile isDigitCh ++ [u] = ['8', 'U'] ∨
              (p1.drop 3).takeWhile isDigitCh ++ [u] = ['8', 'S'] ∨
              (p1.drop 3).takeWhile isDigitCh ++ [u] = ['1', '6', 'U'] ∨
              (p1.drop 3).takeWhile isDigitCh ++ [u] = ['1', '6', 'S'] ∨
              (p1.drop 3).takeWhile isDigitCh ++ [u] = ['3', '2', 'S'] ∨
              (p1.drop 3).takeWhile isDigitCh ++ [u] = ['3', '2', 'F'] ∨
              (p1.drop 3).takeWhile isDigitCh ++ [u] = ['6', '4', 'F'] := by
            simp only [validDepth, Bool.or_eq_true, decide_eq_true_eq] at hval
            rcases hval with ((((((h | h) | h) | h) | h) | h) | h)
            exacts [Or.inl (congrArg String.data h),
              Or.inr (Or.inl (congrArg String.data h)),
              Or.inr (Or.inr (Or.inl (congrArg String.data h))),
              Or.inr (Or.inr (Or.inr (Or.inl (congrArg String.data h)))),
              Or.inr (Or.inr (Or.inr (Or.inr (Or.inl (congrArg String.data h))))),
              Or.inr (Or.inr (Or.inr (Or.inr (Or.inr (Or.inl (congrArg String.data h)))))),
              Or.inr (Or.inr (Or.inr (Or.inr (Or.inr (Or.inr (congrArg String.data h))))))]
          rcases hlist with h | h | h | h | h | h | h <;>
            (first
              | obtain ⟨hds, hu2⟩ := append_single_two h
              | obtain ⟨hds, hu2⟩ := append_single_three h) <;>
            subst hu2 <;>
            rw [hds, hp1,
              ← List.takeWhile_append_dropWhile (p := isDigitCh) (l := p1.drop 3), hds,
              hrest] <;>
            decide
      · -- the branch with a channel part after the letter
        rename_i u chs hrest
        split at him
        case isFalse => exact absurd him (by simp)
        case isTrue hcond =>
          rw [Option.some.injEq, Prod.mk.injEq] at him
          obtain ⟨hdep, hchs⟩ := him
          subst hchs
          refine ⟨fun hc => absurd hc (by simp), fun chs2 hc h4 => ?_⟩
          have hcc : chs2 = chs := by
            injection hc with h1
            exact h1.symm
          subst hcc
          obtain ⟨hu, hnumchs⟩ := hcond
          rcases chs2 with _ | ⟨c, _ | ⟨c2, rest2⟩⟩
          · simp [numeralNoLead] at hnumchs
          · have hb : 49 ≤ c.toNat ∧ c.toNat ≤ 57 := by
              simp only [numeralNoLead, List.all_nil, Bool.and_true, Bool.and_eq_true,
                decide_eq_true_eq] at hnumchs
              exact hnumchs
            rw [digitsToNat_single] at h4 ⊢
            rw [← hdep]
            rw [← hdep] at hval
            have hlist : (p1.drop 3).takeWhile isDigitCh ++ [u] = ['8', 'U'] ∨
                (p1.drop 3).takeWhile isDigitCh ++ [u] = ['8', 'S'] ∨
                (p1.drop 3).takeWhile isDigitCh ++ [u] = ['1', '6', 'U'] ∨
                (p1.drop 3).takeWhile isDigitCh ++ [u] = ['1', '6', 'S'] ∨
                (p1.drop 3).takeWhile isDigitCh ++ [u] = ['3', '2', 'S'] ∨
                (p1.drop 3).takeWhile isDigitCh ++ [u] = ['3', '2', 'F'] ∨
                (p1.drop 3).takeWhile isDigitCh ++ [u] = ['6', '4', 'F'] := by
              simp only [validDepth, Bool.or_eq_true, decide_eq_true_eq] at hval
              rcases hval with ((((((h | h) | h) | h) | h) | h) | h)
              exacts [Or.inl (congrArg String.data h),
                Or.inr (Or.inl (congrArg String.data h)),
                Or.inr (Or.inr (Or.inl (congrArg String.data h))),
                Or.inr (Or.inr (Or.inr (Or.inl (congrArg String.data h)))),
                Or.inr (Or.inr (Or.inr (Or.inr (Or.inl (congrArg String.data h))))),
                Or.inr (Or.inr (Or.inr (Or.inr (Or.inr (Or.inl (congrArg String.data h)))))),
                Or.inr (Or.inr (Or.inr (Or.inr (Or.inr (Or.inr (congrArg String.data h))))))]
            rcases hlist with h | h | h | h | h | h | h <;>
              (first
                | obtain ⟨hds, hu2⟩ := append_single_two h
                | obtain ⟨hds, hu2⟩ := append_single_three h) <;>
              subst hu2 <;>
              rw [hds, hp1,
                ← List.takeWhile_append_dropWhile (p := isDigitCh) (l := p1.drop 3), hds,
                hrest] <;>
              simp only [List.cons_append, List.nil_append, cvDepthChan, depthSpec,
                chanSpec] <;>
              rw [if_pos (show 49 ≤ c.toNat ∧ c.toNat ≤ 52 from ⟨by omega, by omega⟩)] <;>
              simp only [Option.map_some'] <;>
              exact congrArg (fun d => some (d, c.toNat - 48)) (by decide)
          · have h10 := digitsToNat_two_ge rest2 hnumchs
            omega
      all_goals exact absurd him (by simp)


/-- When the spec-side grammar recognizes the segment, the implementation
regexes match with the same depth, a valid depth code, and channel digits
whose value is the recognized channel count. -/
theorem depth_spec_to_impl {p1 : List Char} {dep : String} {ch : Nat}
    (hspec : cvDepthChan p1 = some (dep, ch)) :
    validDepth dep = true ∧
    ((ch = 1 ∧ depthChanMatch p1 = some (dep, Option.none)) ∨
     (∃ c : Char, depthChanMatch p1 = some (dep, some [c]) ∧
        digitsToNat [c] = ch ∧ 1 ≤ ch ∧ ch ≤ 4)) := by
  unfold cvDepthChan at hspec
  split at hspec
  · -- the CV_ arm
    unfold depthSpec at hspec
    split at hspec
    · rw [Option.map_eq_some'] at hspec
      obtain ⟨chv, hcs, hpair⟩ := hspec
      rw [Prod.mk.injEq] at hpair
      obtain ⟨hdep, hch⟩ := hpair
      subst hdep
      subst hch
      unfold chanSpec at hcs
      split at hcs
      · injection hcs with h1
        subst h1
        exact ⟨by decide, Or.inl ⟨rfl, by decide⟩⟩
      · rename_i c
        split at hcs
        · rename_i hb
          injection hcs with h1
          subst h1
          refine ⟨by decide, Or.inr ⟨c, ?_, digitsToNat_single c, by omega, by omega⟩⟩
          have hb2 := depthChanMatch_build ['8'] 'U' [c] (by decide) (by decide)
            (by
              simp only [numeralNoLead, List.all_nil, Bool.and_true, Bool.and_eq_true,
                decide_eq_true_eq]
              exact ⟨by omega, by omega⟩)
          exact hb2.trans
            (congrArg (fun d => some (d, some [c]))
              (show strOf (['8'] ++ ['U']) = "8U" by decide))
        · exact absurd hcs (by simp)
      · exact absurd hcs (by simp)
    · rw [Option.map_eq_some'] at hspec
      obtain ⟨chv, hcs, hpair⟩ := hspec
      rw [Prod.mk.injEq] at hpair
      obtain ⟨hdep, hch⟩ := hpair
      subst hdep
      subst hch
      unfold chanSpec at hcs
      split at hcs
      · injection hcs with h1
        subst h1
        exact ⟨by decide, Or.inl ⟨rfl, by decide⟩⟩
      · rename_i c
        split at hcs
        · rename_i hb
          injection hcs with h1
          subst h1
          refine ⟨by decide, Or.inr ⟨c, ?_, digitsToNat_single c, by omega, by omega⟩⟩
          have hb2 := depthChanMatch_build ['8'] 'S' [c] (by decide) (by decide)
            (by
              simp only [numeralNoLead, List.all_nil, Bool.and_true, Bool.and_eq_true,
                decide_eq_true_eq]
              exact ⟨by omega, by omega⟩)
          exact hb2.trans
            (congrArg (fun d => some (d, some [c]))
              (show strOf (['8'] ++ ['S']) = "8S" by decide))
        · exact absurd hcs (by simp)
      · exact absurd hcs (by simp)
    · rw [Option.map_eq_some'] at hspec
      obtain ⟨chv, hcs, hpair⟩ := hspec
      rw [Prod.mk.injEq] at hpair
      obtain ⟨hdep, hch⟩ := hpair
      subst hdep
      subst hch
      unfold chanSpec at hcs
      split at hcs
      · injection hcs with h1
        subst h1
        exact ⟨by decide, Or.inl ⟨rfl, by decide⟩⟩
      · rename_i c
        split at hcs
        · rename_i hb
          injection hcs with h1
          subst h1
          refine ⟨by decide, Or.inr ⟨c, ?_, digitsToNat_single c, by omega, by omega⟩⟩
          have hb2 := depthChanMatch_build ['1', '6'] 'U' [c] (by decide) (by decide)
            (by
              simp only [numeralNoLead, List.all_nil, Bool.and_true, Bool.and_eq_true,
                decide_eq_true_eq]
              exact ⟨by omega, by omega⟩)
          exact hb2.trans
            (congrArg (fun d => some (d, some [c]))
              (show strOf (['1', '6'] ++ ['U']) = "16U" by decide))
        · exact absurd hcs (by simp)
      · exact absurd hcs (by simp)
    · rw [Option.map_eq_some'] at hspec
      obtain ⟨chv, hcs, hpair⟩ := hspec
      rw [Prod.mk.injEq] at hpair
      obtain ⟨hdep, hch⟩ := hpair
      subst hdep
      subst hch
      unfold chanSpec at hcs
      split at hcs
      · injection hcs with h1
        subst h1
        exact ⟨by decide, Or.inl ⟨rfl, by decide⟩⟩
      · rename_i c
        split at hcs
        · rename_i hb
          injection hcs with h1
          subst h1
          refine ⟨by decide, Or.inr ⟨c, ?_, digitsToNat_single c, by omega, by omega⟩⟩
          have hb2 := depthChanMatch_build ['1', '6'] 'S' [c] (by decide) (by decide)
            (by
              simp only [numeralNoLead, List.all_nil, Bool.and_true, Bool.and_eq_true,
                decide_eq_true_eq]
              exact ⟨by omega, by omega⟩)
          exact hb2.trans
            (congrArg (fun d => some (d, some [c]))
              (show strOf (['1', '6'] ++ ['S']) = "16S" by decide))
        · exact absurd hcs (by simp)
      · exact absurd hcs (by simp)
    · rw [Option.map_eq_some'] at hspec
      obtain ⟨chv, hcs, hpair⟩ := hspec
      rw [Prod.mk.injEq] at hpair
      obtain ⟨hdep, hch⟩ := hpair
      subst hdep
      subst hch
      unfold chanSpec at hcs
      split at hcs
      · injection hcs with h1
        subst h1
        exact ⟨by decide, Or.inl ⟨rfl, by decide⟩⟩
      · rename_i c
        split at hcs
        · rename_i hb
          injection hcs with h1
          subst h1
          refine ⟨by decide, Or.inr ⟨c, ?_, digitsToNat_single c, by omega, by omega⟩⟩
          have hb2 := depthChanMatch_build ['3', '2'] 'S' [c] (by decide) (by decide)
            (by
              simp only [numeralNoLead, List.all_nil, Bool.and_true, Bool.and_eq_true,
                decide_eq_true_eq]
              exact ⟨by omega, by omega⟩)
          exact hb2.trans
            (congrArg (fun d => some (d, some [c]))
              (show strOf (['3', '2'] ++ ['S']) = "32S" by decide))
        · exact absurd hcs (by simp)
      · exact absurd hcs (by simp)
    · rw [Option.map_eq_some'] at hspec
      obtain ⟨chv, hcs, hpair⟩ := hspec
      rw [Prod.mk.injEq] at hpair
      obtain ⟨hdep, hch⟩ := hpair
      subst hdep
      subst hch
      unfold chanSpec at hcs
      split at hcs
      · injection hcs with h1
        subst h1
        exact ⟨by decide, Or.inl ⟨rfl, by decide⟩⟩
      · rename_i c
        split at hcs
        · rename_i hb
          injection hcs with h1
          subst h1
          refine ⟨by decide, Or.inr ⟨c, ?_, digitsToNat_single c, by omega, by omega⟩⟩
          have hb2 := depthChanMatch_build ['3', '2'] 'F' [c] (by decide) (by decide)
            (by
              simp only [numeralNoLead, List.all_nil, Bool.and_true, Bool.and_eq_true,
                decide_eq_true_eq]
              exact ⟨by omega, by omega⟩)
          exact hb2.trans
            (congrArg (fun d => some (d, some [c]))
              (show strOf (['3', '2'] ++ ['F']) = "32F" by decide))
        · exact absurd hcs (by simp)
      · exact absurd hcs (by simp)
    · rw [Option.map_eq_some'] at hspec
      obtain ⟨chv, hcs, hpair⟩ := hspec
      rw [Prod.mk.injEq] at hpair
      obtain ⟨hdep, hch⟩ := hpair
      subst hdep
      subst hch
      unfold chanSpec at hcs
      split at hcs
      · injection hcs with h1
        subst h1
        exact ⟨by decide, Or.inl ⟨rfl, by decide⟩⟩
      · rename_i c
        split at hcs
        · rename_i hb
          injection hcs with h1
          subst h1
          refine ⟨by decide, Or.inr ⟨c, ?_, digitsToNat_single c, by omega, by omega⟩⟩
          have hb2 := depthChanMatch_build ['6', '4'] 'F' [c] (by decide) (by decide)
            (by
              simp only [numeralNoLead, List.all_nil, Bool.and_true, Bool.and_eq_true,
                decide_eq_true_eq]
              exact ⟨by omega, by omega⟩)
          exact hb2.trans
            (congrArg (fun d => some (d, some [c]))
              (show strOf (['6', '4'] ++ ['F']) = "64F" by decide))
        · exact absurd hcs (by simp)
      · exact absurd hcs (by simp)
    all_goals exact absurd hspec (by simp)
  · exact absurd hspec (by simp)

/-- Success of the container-kind step, as a Boolean, for a record whose
default ctype is Mat. -/
theorem ctypeStep_isOk (s : String) (p2 : Option (List Char)) (d : DataDtor)
    (hm : d.ctype = some "Mat") :
    isOkB (ctypeStep s p2 d) =
      (match p2 with
       | Option.none => true
       | some p =>
         if p = [] then true
         else if p = "Mat".data then true
         else if p = "Matx".data ∨ p = "Vec".data then decide (d.channels ≤ 1)
         else false) := by
  cases p2 with
  | none => simp [ctypeStep, finishData, hm, isOkB]
  | some p =>
    by_cases h0 : p = []
    · simp [ctypeStep, finishData, h0, hm, isOkB]
    · by_cases h1 : p = "Mat".data
      · subst h1
        have hs : strOf "Mat".data = "Mat" := strOf_data "Mat"
        simp [ctypeStep, finishData, h0, hs, isOkB]
      · by_cases h2 : p = "Matx".data ∨ p = "Vec".data
        · have hne : strOf p ≠ "Mat" := by
            intro he
            apply h1
            have := congrArg String.data he
            simpa using this
          by_cases hch : d.channels ≤ 1
          · simp [ctypeStep, finishData, h0, h1, h2, hne, isOkB, hch, Nat.not_lt_of_le hch]
          · have hgt : d.channels > 1 := by omega
            simp [ctypeStep, finishData, h0, h1, h2, hne, isOkB, hch, hgt]
        · simp [ctypeStep, finishData, h0, h1, h2, isOkB]

/-- Success of the CV branch, as a Boolean, equals the amended grammar
condition on the first two colon-segments. -/
theorem cvDataStep_isOk (s : String) (p1 : List Char) (p2 : Option (List Char)) :
    isOkB (cvDataStep s p1 p2) = cvAmendedRhs p1 p2 := by
  cases hspec : cvDepthChan p1 with
  | some pr =>
    obtain ⟨dep, ch⟩ := pr
    obtain ⟨hval, hcase⟩ := depth_spec_to_impl hspec
    rcases hcase with ⟨h1, him⟩ | ⟨c, him, hdc, hge, hle⟩
    · subst h1
      unfold cvDataStep
      simp only [him]
      rw [if_neg (by simp [hval])]
      rw [ctypeStep_isOk s p2 _ rfl]
      unfold cvAmendedRhs
      simp only [hspec]
      cases p2 with
      | none => rfl
      | some p =>
        by_cases h0 : p = []
        · simp [h0]
        · by_cases hmt : p = "Mat".data
          · simp [h0, hmt]
          · by_cases h2 : p = "Matx".data ∨ p = "Vec".data
            · simp [h0, hmt, h2]
            · simp [h0, hmt, h2]
    · unfold cvDataStep
      simp only [him]
      rw [if_neg (by omega)]
      rw [if_neg (by simp [hval])]
      rw [ctypeStep_isOk s p2 _ rfl]
      unfold cvAmendedRhs
      simp only [hspec]
      cases p2 with
      | none => rfl
      | some p =>
        by_cases h0 : p = []
        · simp [h0]
        · by_cases hmt : p = "Mat".data
          · simp [h0, hmt]
          · by_cases h2 : p = "Matx".data ∨ p = "Vec".data
            · have hiff : (digitsToNat [c] ≤ 1) ↔ (ch = 1) := by omega
              simp [h0, hmt, h2, hiff]
            · simp [h0, hmt, h2]
  | none =>
    cases him : depthChanMatch p1 with
    | none => simp [cvDataStep, cvAmendedRhs, him, hspec, isOkB]
    | some pr =>
      obtain ⟨dep, chsOpt⟩ := pr
      cases chsOpt with
      | none =>
        by_cases hv : validDepth dep = true
        · have := (depth_impl_to_spec him hv).1 rfl
          rw [hspec] at this
          exact absurd this (by simp)
        · simp [cvDataStep, cvAmendedRhs, him, hspec, isOkB, hv]
      | some chs =>
        by_cases h4 : digitsToNat chs > 4
        · simp [cvDataStep, cvAmendedRhs, him, hspec, isOkB, h4]
        · by_cases hv : validDepth dep = true
          · have := (depth_impl_to_spec him hv).2 chs rfl (by omega)
            rw [hspec] at this
            exact absurd this (by simp)
          · simp [cvDataStep, cvAmendedRhs, him, hspec, isOkB, h4, hv]

/-- A token starting with CV is none of the four primitive names. -/
theorem prim_not_cv {s : String} (h : startsList "CV".data s.data = true) :
    isPrimTok s = false := by
  simp only [isPrimTok, Bool.or_eq_false_iff, decide_eq_false_iff_not]
  refine ⟨⟨⟨fun he => ?_, fun he => ?_⟩, fun he => ?_⟩, fun he => ?_⟩ <;>
    subst he <;> exact absurd h (by decide)

/-- C5.  The data-descriptor parser does not accept exactly the claimed
token grammar: it accepts the amended language, in which only the first two
colon-segments matter, anything after the second colon is ignored, and an
empty second segment counts as absent.  (claimedDataTok states the original
claim; C5_counterexample separates the two languages.) -/
theorem C5_data_grammar (s : String) :
    isOkB (parseDataDtor s) = dataTokAmended s := by
  unfold parseDataDtor dataTokAmended
  by_cases hcv : startsList "CV".data s.data = true
  · rw [if_pos hcv, cvDataStep_isOk, prim_not_cv hcv, hcv]
    simp
  · have hcv' : startsList "CV".data s.data = false := by
      simp only [Bool.not_eq_true] at hcv
      exact hcv
    rw [if_neg hcv, hcv']
    by_cases hp : s = "char" ∨ s = "int" ∨ s = "float" ∨ s = "double"
    · rw [if_pos hp]
      have : isPrimTok s = true := by
        simp only [isPrimTok, Bool.or_eq_true, decide_eq_true_eq]
        tauto
      simp [this, isOkB]
    · rw [if_neg hp]
      have : isPrimTok s = false := by
        simp only [isPrimTok, Bool.or_eq_false_iff, decide_eq_false_iff_not]
        tauto
      simp [this, isOkB]

/-- Witness for C5 on a concrete accepted token with a container suffix. -/
theorem C5_witness :
    isOkB (parseDataDtor "CV_16SC2:Mat") = dataTokAmended "CV_16SC2:Mat" :=
  C5_data_grammar "CV_16SC2:Mat"

example : dataTokAmended "CV_32F:" = true := by decide
example : isOkB (parseDataDtor "CV_32F:") = true := by decide
example : claimedDataTok "CV_32F:" = false := by decide
example : dataTokAmended "CV_8UC5" = false ∧ isOkB (parseDataDtor "CV_8UC5") = false := by decide
example : claimedDataTok "CV_32FC2" = true ∧ dataTokAmended "CV_32FC2" = true := by decide
example : claimedDataTok "CV_64F:Vec" = true ∧ isOkB (parseDataDtor "CV_64F:Vec") = true := by
  decide
example : claimedDataTok "CV_32FC2:Vec" = false ∧ isOkB (parseDataDtor "CV_32FC2:Vec") = false := by
  decide

/-! ## Claim C9: lib/utils.js parseAttrType

The source tests the attribute expression against
(string|int|float|bool) *= *([^ ].*) — anchored only at the start, with the
dot excluding line terminators — and then validates the trimmed capture
against a per-type default-value grammar. -/

/-- JavaScript regular-expression line terminators (excluded by the dot). -/
def isLineTerm (c : Char) : Bool :=
  c.toNat = 10 || c.toNat = 13 || c.toNat = 8232 || c.toNat = 8233

/-- The whitespace class stripped by JavaScript String.prototype.trim. -/
def isWsCh (c : Char) : Bool :=
  c.toNat = 32 || c.toNat = 9 || c.toNat = 10 || c.toNat = 11 || c.toNat = 12 ||
  c.toNat = 13 || c.toNat = 160 || c.toNat = 65279 || c.toNat = 5760 ||
  (8192 ≤ c.toNat && c.toNat ≤ 8202) || c.toNat = 8232 || c.toNat = 8233 ||
  c.toNat = 8239 || c.toNat = 8287 || c.toNat = 12288

/-- JavaScript String.prototype.trim. -/
def trimChars (l : List Char) : List Char :=
  ((l.dropWhile isWsCh).reverse.dropWhile isWsCh).reverse

/-- The part of the attribute regex after the type word: zero or more
spaces, an equals sign, zero or more spaces, then a non-space character
followed by the rest of the line (the unanchored ([^ ].*) capture). -/
def attrTail (l : List Char) : Option (List Char) :=
  match l.dropWhile (fun c => c = ' ') with
  | '=' :: r2 =>
    match r2.dropWhile (fun c => c = ' ') with
    | [] => none
    | c :: rest => some (c :: rest.takeWhile (fun x => ¬ isLineTerm x))
  | _ => none

/-- Match of the whole attribute regex: the four type alternatives begin
with distinct letters, so the alternation is a prefix test per word. -/
def attrMatch (l : List Char) : Option (String × List Char) :=
  if startsList "string".data l then (attrTail (l.drop 6)).map (fun d => ("string", d))
  else if startsList "int".data l then (attrTail (l.drop 3)).map (fun d => ("int", d))
  else if startsList "float".data l then (attrTail (l.drop 5)).map (fun d => ("float", d))
  else if startsList "bool".data l then (attrTail (l.drop 4)).map (fun d => ("bool", d))
  else none

/-- Default-value grammar for string attributes: quoted and of length at
least two. -/
def strDefOk (d : List Char) : Bool :=
  decide (2 ≤ d.length) &&
  (match d.head?, d.getLast? with
   | some a, some b => (a = '\'' && b = '\'') || (a = '"' && b = '"')
   | _, _ => false)

/-- Default-value grammar for int attributes: ^(0|-?[1-9]\d*)$. -/
def intDefOk (d : List Char) : Bool :=
  d = ['0'] || numeralNoLead d ||
  (match d with
   | '-' :: r => numeralNoLead r
   | _ => false)

/-- An unsigned float body: (0|0\.\d+|\.\d+|[1-9]\d*(\.\d+)?)$. -/
def floatCore (d : List Char) : Bool :=
  d = ['0'] ||
  (match d with
   | '0' :: '.' :: r => !r.isEmpty && r.all isDigitCh
   | '.' :: r => !r.isEmpty && r.all isDigitCh
   | _ => false) ||
  (match splitCh '.' d with
   | [a] => numeralNoLead a
   | [a, b] => numeralNoLead a && !b.isEmpty && b.all isDigitCh
   | _ => false)

/-- Default-value grammar for float attributes: an optional minus then the
unsigned body. -/
def floatDefOk (d : List Char) : Bool :=
  match d with
  | '-' :: r => floatCore r
  | _ => floatCore d

/-- Default-value grammar for bool attributes. -/
def boolDefOk (d : List Char) : Bool :=
  d = "0".data || d = "1".data || d = "false".data || d = "true".data ||
  d = "False".data || d = "True".data

def attrFmtMsg (s : String) : String := "Invalid attribute type format: " ++ s

def attrDefMsg (ty : String) (d : List Char) (s : String) : String :=
  "Invalid default value for " ++ ty ++ ": " ++ strOf d ++ " from " ++ s

structure AttrType where
  type : String
  defaultVal : String
deriving DecidableEq

/-- The per-type default check chain of parseAttrType on the trimmed
capture. -/
def attrCheck (s : String) (ty : String) (d : List Char) : Except String AttrType :=
  if ty = "string" then
    if strDefOk d then .ok ⟨ty, strOf d⟩ else .error (attrDefMsg "string" d s)
  else if ty = "int" then
    if intDefOk d then .ok ⟨ty, strOf d⟩ else .error (attrDefMsg "int" d s)
  else if ty = "float" then
    if floatDefOk d then .ok ⟨ty, strOf d⟩ else .error (attrDefMsg "float" d s)
  else if ty = "bool" then
    if boolDefOk d then .ok ⟨ty, strOf d⟩ else .error (attrDefMsg "bool" d s)
  else .ok ⟨ty, strOf d⟩

/-- lib/utils.js parseAttrType. -/
def parseAttrType (s : String) : Except String AttrType :=
  match attrMatch s.data with
  | none => .error (attrFmtMsg s)
  | some (ty, raw) => attrCheck s ty (trimChars raw)

/-- The per-type default grammar selected by the type word. -/
def defOkFor (ty : String) (d : List Char) : Bool :=
  if ty = "string" then strDefOk d
  else if ty = "int" then intDefOk d
  else if ty = "float" then floatDefOk d
  else if ty = "bool" then boolDefOk d
  else false

/-- The attribute regex as the original claim reads it: anchored at both
ends, so the default literal is everything after the equals sign. -/
def attrTailFull (l : List Char) : Option (List Char) :=
  match l.dropWhile (fun c => c = ' ') with
  | '=' :: r2 =>
    match r2.dropWhile (fun c => c = ' ') with
    | [] => none
    | c :: rest => some (c :: rest)
  | _ => none

/-- Whole-string match for the claimed reading. -/
def attrMatchFull (l : List Char) : Option (String × List Char) :=
  if startsList "string".data l then (attrTailFull (l.drop 6)).map (fun d => ("string", d))
  else if startsList "int".data l then (attrTailFull (l.drop 3)).map (fun d => ("int", d))
  else if startsList "float".data l then (attrTailFull (l.drop 5)).map (fun d => ("float", d))
  else if startsList "bool".data l then (attrTailFull (l.drop 4)).map (fun d => ("bool", d))
  else none

/-- The attribute-expression language as the original claim states it. -/
def claimedAttrOk (s : String) : Bool :=
  match attrMatchFull s.data with
  | some (ty, raw) => defOkFor ty (trimChars raw)
  | none => false

/-- The amended attribute-expression language: only the first line of the
text after the equals sign is captured and validated; the rest of the
input is ignored. -/
def attrOkAmended (s : String) : Bool :=
  match attrMatch s.data with
  | some (ty, raw) => defOkFor ty (trimChars raw)
  | none => false

example : parseAttrType "int = 3" = .ok { type := "int", defaultVal := "3" } := by decide
example : parseAttrType "string = 'abc'" =
    .ok { type := "string", defaultVal := "'abc'" } := by decide
example : parseAttrType "float = -0.5" = .ok { type := "float", defaultVal := "-0.5" } := by
  decide
example : parseAttrType "float = .5" = .ok { type := "float", defaultVal := ".5" } := by decide
example : parseAttrType "bool = True" = .ok { type := "bool", defaultVal := "True" } := by decide
example : parseAttrType "int" = .error (attrFmtMsg "int") := by decide
example : parseAttrType "int = 007" =
    .error (attrDefMsg "int" ['0', '0', '7'] "int = 007") := by decide
example : parseAttrType "float = 5." =
    .error (attrDefMsg "float" ['5', '.'] "float = 5.") := by decide
example : parseAttrType "string = 'a" =
    .error (attrDefMsg "string" ['\'', 'a'] "string = 'a") := by decide
example : isOkB (parseAttrType "int   =   42") = true := by decide

/-- The type word produced by attrMatch is one of the four alternatives. -/
theorem attrMatch_ty {l : List Char} {ty : String} {raw : List Char}
    (h : attrMatch l = some (ty, raw)) :
    ty = "string" ∨ ty = "int" ∨ ty = "float" ∨ ty = "bool" := by
  unfold attrMatch at h
  split_ifs at h <;>
    first
    | (rw [Option.map_eq_some'] at h
       obtain ⟨d, -, hpair⟩ := h
       rw [Prod.mk.injEq] at hpair
       obtain ⟨h1, -⟩ := hpair
       subst h1
       simp)
    | exact absurd h (by simp)

/-- Success of a Boolean-guarded result. -/
theorem isOkB_ite {α ε : Type} {b : Bool} {v : α} {msg : ε} :
    isOkB (if b then Except.ok v else Except.error msg) = b := by
  cases b <;> simp [isOkB]

/-- C9.  parseAttrType accepts exactly the amended attribute language: the
type word, spaces, an equals sign, spaces, then a default capture that only
extends to the end of the line, with the per-type grammar checked on the
trimmed capture; when it accepts, it returns the type word and the trimmed
capture.  (claimedAttrOk states the original whole-string reading;
C9_counterexample separates the two languages.) -/
theorem C9_parseAttrType (s : String) :
    (isOkB (parseAttrType s) = attrOkAmended s) ∧
    (∀ ty raw, attrMatch s.data = some (ty, raw) → defOkFor ty (trimChars raw) = true →
      parseAttrType s = .ok { type := ty, defaultVal := strOf (trimChars raw) }) := by
  constructor
  · unfold parseAttrType attrOkAmended
    cases hm : attrMatch s.data with
    | none => simp [isOkB]
    | some pr =>
      obtain ⟨ty, raw⟩ := pr
      rcases attrMatch_ty hm with h | h | h | h <;>
        subst h <;>
        simp [attrCheck, defOkFor, isOkB_ite]
  · intro ty raw hm hok
    unfold parseAttrType
    simp only [hm]
    rcases attrMatch_ty hm with h | h | h | h <;>
      subst h <;>
      simp [defOkFor] at hok <;>
      simp [attrCheck, hok]

/-- Witness for C9 on a concrete float attribute. -/
theorem C9_witness :
    parseAttrType "float = .5" =
      .ok { type := "float", defaultVal := strOf (trimChars ['.', '5']) } :=
  (C9_parseAttrType "float = .5").2 "float" ['.', '5'] (by decide) (by decide)

/-- Counterexample to C9 as stated: the attribute regex is not anchored at
the end, so everything after the first line is ignored rather than
invalidating the default. -/
theorem C9_counterexample :
    parseAttrType "int = 0\ngarbage" = .ok { type := "int", defaultVal := "0" } ∧
    claimedAttrOk "int = 0\ngarbage" = false := by
  refine ⟨by decide, by decide⟩

/-! ## Claims C3 and C4: lib/generator.js loop synthesis

The loop builders of computeInputFn (Array to Container) and
computeOutputFn (Container to Array) are embedded as string builders, and
the guard claims become substring properties of the emitted code. -/

/-- Substring occurrence (String.prototype.includes). -/
def hasSub (pat : List Char) : List Char → Bool
  | [] => startsList pat []
  | c :: cs => startsList pat (c :: cs) || hasSub pat cs

theorem startsList_append_mono {p l : List Char} (b : List Char)
    (h : startsList p l = true) : startsList p (l ++ b) = true := by
  induction p generalizing l with
  | nil => rfl
  | cons x xs ih =>
    cases l with
    | nil => simp [startsList] at h
    | cons c cs =>
      simp only [startsList, Bool.and_eq_true] at h
      simp only [List.cons_append, startsList, Bool.and_eq_true]
      exact ⟨h.1, ih h.2⟩

theorem hasSub_append_left {pat a : List Char} (b : List Char)
    (h : hasSub pat a = true) : hasSub pat (a ++ b) = true := by
  induction a with
  | nil =>
    cases pat with
    | nil =>
      cases b with
      | nil => rfl
      | cons y ys => simp [hasSub, startsList]
    | cons p ps => simp [hasSub, startsList] at h
  | cons c cs ih =>
    simp only [hasSub, Bool.or_eq_true] at h
    simp only [List.cons_append, hasSub, Bool.or_eq_true]
    rcases h with h | h
    · exact Or.inl (by simpa using startsList_append_mono b h)
    · exact Or.inr (ih h)

theorem hasSub_append_right {pat b : List Char} (a : List Char)
    (h : hasSub pat b = true) : hasSub pat (a ++ b) = true := by
  induction a with
  | nil => simpa using h
  | cons c cs ih =>
    simp only [List.cons_append, hasSub, Bool.or_eq_true]
    exact Or.inr ih

theorem startsList_of_append_eq {p q l : List Char} (h : startsList (p ++ q) l = true) :
    startsList p l = true := by
  induction p generalizing l with
  | nil => rfl
  | cons x xs ih =>
    cases l with
    | nil => simp [startsList] at h
    | cons c cs =>
      simp only [List.cons_append, startsList, Bool.and_eq_true] at h
      simp only [startsList, Bool.and_eq_true]
      exact ⟨h.1, ih h.2⟩

theorem hasSub_prefix_pat {p q l : List Char} (h : hasSub (p ++ q) l = true) :
    hasSub p l = true := by
  induction l with
  | nil =>
    cases p with
    | nil => rfl
    | cons x xs => simp [hasSub, startsList] at h
  | cons c cs ih =>
    simp only [hasSub, Bool.or_eq_true] at h ⊢
    rcases h with h | h
    · exact Or.inl (startsList_of_append_eq h)
    · exact Or.inr (ih h)

/-- No i immediately followed by s or f anywhere in the text. -/
def iOk : List Char → Bool
  | a :: b :: rest => !(a = 'i' && (b = 's' || b = 'f')) && iOk (b :: rest)
  | _ => true

/-- Guard-free text: no is or if pair, and the text does not end in i (so
that the invariant composes under concatenation). -/
def textOk (l : List Char) : Bool := iOk l && decide (l.getLast? ≠ some 'i')

theorem iOk_tail {a : Char} {rest : List Char} (h : iOk (a :: rest) = true) :
    iOk rest = true := by
  cases rest with
  | nil => rfl
  | cons b bs =>
    simp only [iOk, Bool.and_eq_true] at h
    exact h.2

theorem iOk_append {a b : List Char} (h1 : iOk a = true) (h2 : iOk b = true)
    (h3 : a.getLast? ≠ some 'i') : iOk (a ++ b) = true := by
  induction a with
  | nil => simpa using h2
  | cons x xs ih =>
    cases xs with
    | nil =>
      cases b with
      | nil => simp [iOk]
      | cons y ys =>
        simp only [List.cons_append, List.nil_append]
        show iOk (x :: y :: ys) = true
        simp only [iOk, Bool.and_eq_true]
        refine ⟨?_, h2⟩
        simp only [List.getLast?_singleton, ne_eq, Option.some.injEq] at h3
        simp [h3]
    | cons x2 rest =>
      have hlast : (x2 :: rest).getLast? ≠ some 'i' := by
        rwa [← List.getLast?_cons_cons]
      have htail : iOk (x2 :: rest) = true := iOk_tail h1
      have hrec := ih htail hlast
      simp only [List.cons_append] at hrec ⊢
      simp only [iOk, Bool.and_eq_true] at h1 ⊢
      exact ⟨h1.1, hrec⟩

theorem getLast_append_ne {a b : List Char} (h1 : a.getLast? ≠ some 'i')
    (h2 : b.getLast? ≠ some 'i') : (a ++ b).getLast? ≠ some 'i' := by
  cases b with
  | nil => simpa using h1
  | cons y ys =>
    rw [List.getLast?_append_cons]
    exact h2

theorem textOk_append {a b : List Char} (h1 : textOk a = true) (h2 : textOk b = true) :
    textOk (a ++ b) = true := by
  simp only [textOk, Bool.and_eq_true, decide_eq_true_eq] at h1 h2 ⊢
  exact ⟨iOk_append h1.1 h2.1 h1.2, getLast_append_ne h1.2 h2.2⟩

theorem textOk_no_pair {l : List Char} {c : Char} (h : textOk l = true)
    (hc : c = 's' ∨ c = 'f') : hasSub ['i', c] l = false := by
  induction l with
  | nil => rfl
  | cons a rest ih =>
    simp only [textOk, Bool.and_eq_true, decide_eq_true_eq] at h
    obtain ⟨hok, hlast⟩ := h
    have htail : textOk rest = true := by
      simp only [textOk, Bool.and_eq_true, decide_eq_true_eq]
      refine ⟨iOk_tail hok, ?_⟩
      cases rest with
      | nil => simp
      | cons b bs =>
        rwa [List.getLast?_cons_cons] at hlast
    simp only [hasSub, Bool.or_eq_false_iff]
    refine ⟨?_, ih htail⟩
    simp only [startsList, Bool.and_eq_false_iff]
    by_cases hia : 'i' = a
    · subst hia
      cases rest with
      | nil =>
        right
        simp [startsList]
      | cons b bs =>
        simp only [iOk, Bool.and_eq_true, Bool.not_eq_true', Bool.and_eq_false_iff] at hok
        right
        simp only [startsList, Bool.and_eq_false_iff]
        left
        rcases hok.1 with hbad | hbs
        · simp at hbad
        · simp only [Bool.or_eq_false_iff] at hbs
          rcases hc with rfl | rfl
          · simpa using fun he => by simp [← he] at hbs
          · simpa using fun he => by simp [← he] at hbs
    · left
      simpa using hia

theorem textOk_of_all_ne {l : List Char}
    (h : l.all (fun x => decide (x ≠ 'i')) = true) : textOk l = true := by
  induction l with
  | nil => rfl
  | cons a rest ih =>
    simp only [List.all_cons, Bool.and_eq_true, decide_eq_true_eq] at h
    have htail := ih h.2
    simp only [textOk, Bool.and_eq_true, decide_eq_true_eq] at htail ⊢
    constructor
    · cases rest with
      | nil => rfl
      | cons b bs =>
        simp only [iOk, Bool.and_eq_true]
        refine ⟨by simp [h.1], htail.1⟩
    · cases rest with
      | nil => simpa using h.1
      | cons b bs =>
        rw [List.getLast?_cons_cons]
        exact htail.2

theorem digitChar_digit {n : Nat} (h : n < 10) : isDigitCh (Nat.digitChar n) = true := by
  interval_cases n <;> decide

theorem natCharsGo_digits (f : Nat) : ∀ n, (natCharsGo f n).all isDigitCh = true := by
  induction f with
  | zero => intro n; rfl
  | succ f ih =>
    intro n
    unfold natCharsGo
    split
    · simp only [List.all_cons, List.all_nil, Bool.and_true]
      exact digitChar_digit (by omega)
    · rw [List.all_append]
      simp only [Bool.and_eq_true, List.all_cons, List.all_nil, Bool.and_true]
      exact ⟨ih _, digitChar_digit (Nat.mod_lt _ (by omega))⟩

theorem natChars_digits (n : Nat) : (natChars n).all isDigitCh = true :=
  natCharsGo_digits (n + 1) n

/-- Guard-freedom of a string. -/
def strOk (s : String) : Bool := textOk s.data

theorem strOk_append {a b : String} (h1 : strOk a = true) (h2 : strOk b = true) :
    strOk (a ++ b) = true := by
  unfold strOk at h1 h2 ⊢
  rw [strData_append]
  exact textOk_append h1 h2

theorem strOk_natStr (n : Nat) : strOk (natStr n) = true := by
  unfold strOk natStr strOf
  apply textOk_of_all_ne
  have hd := natChars_digits n
  rw [List.all_eq_true] at hd ⊢
  intro x hx
  have := hd x hx
  simp only [isDigitCh, Bool.and_eq_true, decide_eq_true_eq] at this
  simp only [decide_eq_true_eq]
  intro he
  rw [he] at this
  exact absurd this (by decide)

theorem strOk_joinSep {sep : String} {L : List String} (hsep : strOk sep = true)
    (h : ∀ x ∈ L, strOk x = true) : strOk (joinSep sep L) = true := by
  induction L with
  | nil => exact (by decide : strOk "" = true)
  | cons x xs ih =>
    cases xs with
    | nil => exact h x (by simp)
    | cons y ys =>
      show strOk (x ++ sep ++ joinSep sep (y :: ys)) = true
      exact strOk_append (strOk_append (h x (by simp)) hsep)
        (ih (fun z hz => h z (by simp [hz])))

/-- Concatenation of a list of strings (Array.prototype.join with an empty
separator). -/
def concatAll : List String → String
  | [] => ""
  | x :: xs => x ++ concatAll xs

theorem strOk_concatAll {L : List String} (h : ∀ x ∈ L, strOk x = true) :
    strOk (concatAll L) = true := by
  induction L with
  | nil => decide
  | cons x xs ih =>
    show strOk (x ++ concatAll xs) = true
    exact strOk_append (h x (by simp)) (ih (fun z hz => h z (by simp [hz])))

theorem strOk_no_isnan {s : String} (h : strOk s = true) :
    hasSub "isnan".data s.data = false := by
  have hp : hasSub ['i', 's'] s.data = false := textOk_no_pair h (Or.inl rfl)
  by_contra hc
  simp only [Bool.not_eq_false] at hc
  have : hasSub (['i', 's'] ++ "nan".data) s.data = true := hc
  rw [hasSub_prefix_pat this] at hp
  exact absurd hp (by decide)

theorem strOk_no_if {s : String} (h : strOk s = true) :
    hasSub "if".data s.data = false := by
  have hp : hasSub ['i', 'f'] s.data = false := textOk_no_pair h (Or.inr rfl)
  exact hp

/-- Template variables of generator.js (Mustache placeholders). -/
def nameVar : String := "\x7b\x7bname\x7d\x7d"

def dataInVar : String := "\x7b\x7bname\x7d\x7d_in_data"

def dataOutVar : String := "\x7b\x7bname\x7d\x7d_out_data"

def cvVar : String := "\x7b\x7bname\x7d\x7d_cv"

def dimVar : String := "\x7b\x7bname\x7d\x7d_dims_"

def dimSizeInVar : String := "\x7b\x7bname\x7d\x7d_in_dims_sz_"

def dimSizeOutVar : String := "\x7b\x7bname\x7d\x7d_out_dims_sz_"

def cvShapeVar : String := "\x7b\x7bname\x7d\x7d_cv_shape"

def VEC_OF_CV : String := "VEC_OF_CV"

/-- utils.expandArgus with one index argument: template0, ..., template(n-1)
joined by a comma. -/
def expandArgus1 (tmpl : String) (e : Nat) : String :=
  joinSep ", " ((List.range e).map (fun i => tmpl ++ natStr i))

/-- utils.expandArgus with a start and an end index (ascending use only,
which is the only way the generator calls it). -/
def expandArgus2 (tmpl : String) (start e : Nat) : String :=
  joinSep ", " ((List.range' start (e - start)).map (fun i => tmpl ++ natStr i))

/-- utils.expandArgus with a function template. -/
def expandArgusFn (f : Nat → String) (e : Nat) : String :=
  joinSep ", " ((List.range e).map f)

/-- utils.expandArrayAccessor with one index argument:
[template0][template1]... -/
def expandAccessor1 (tmpl : String) (e : Nat) : String :=
  concatAll ((List.range e).map (fun i => "[" ++ tmpl ++ natStr i ++ "]"))

/-- The error thrown by utils.expandArgus when its start argument is the
undefined value. -/
def expandArgusStartErr : String :=
  "[expandArgus] Invalid parameters: start index undefined is not an integer"

/-- The data descriptor as parsed by lib/utils.js parseDataDtor: format is
cv or std, type is the depth code or the primitive name, and origStr is the
original descriptor text returned by toString. -/
structure UDataDtor where
  format : String
  type : String
  channels : Nat
  origStr : String
deriving DecidableEq

/-- The fields of a generator.js parsed shape consumed by the loop
builders. -/
structure GenShape where
  type : String
  typeDecStr : String
  cvRank : Nat
  vecDims : Nat
  matDims : Nat
  dataDtor : UDataDtor
deriving DecidableEq

/-- computeInputFn loopVecOfCv.  The recursion counts down the remaining
loop levels n, so the current start index is e - n. -/
def loopVecOfCvA2C (d : UDataDtor) (e : Nat) : Nat → Except String String
  | 0 =>
    match cvToStd d.type with
    | .error msg => .error msg
    | .ok std =>
      .ok ("if (isnan(" ++ dataInVar ++ "(" ++ (expandArgus1 dimVar e ++ ", 0") ++
        "))) \x7b break; \x7d\n        " ++ cvVar ++ expandAccessor1 dimVar (e - 1) ++
        ".push_back(" ++
        ("Vec<" ++ std ++ ", " ++ natStr d.channels ++ ">(" ++
          expandArgusFn (fun channelIdx =>
            dataInVar ++ "(" ++ expandArgus1 dimVar e ++ ", " ++ natStr channelIdx ++ ")")
            d.channels ++ ")") ++ ");")
  | n + 1 =>
    match loopVecOfCvA2C d e n with
    | .error msg => .error msg
    | .ok inner =>
      .ok ("for (int " ++ dimVar ++ natStr (e - (n + 1)) ++ " = 0; " ++ dimVar ++
        natStr (e - (n + 1)) ++ " < " ++ dimSizeInVar ++ natStr (e - (n + 1)) ++ "; " ++
        dimVar ++ natStr (e - (n + 1)) ++ "++) \x7b\n        " ++ inner ++ "\n      \x7d")

/-- computeInputFn loopVecOfPrim. -/
def loopVecOfPrimA2C (e : Nat) : Nat → String
  | 0 =>
    (if 1 < e then
      "if (isnan(" ++ dataInVar ++ "(" ++ (expandArgus1 dimVar e ++ ", 0") ++
        "))) \x7b break; \x7d"
    else "") ++
    "\n        " ++ cvVar ++ expandAccessor1 dimVar (e - 1) ++ ".push_back(" ++
    (dataInVar ++ "(" ++ expandArgus1 dimVar e ++ ")") ++ ");"
  | n + 1 =>
    "for (int " ++ dimVar ++ natStr (e - (n + 1)) ++ " = 0; " ++ dimVar ++
      natStr (e - (n + 1)) ++ " < " ++ dimSizeInVar ++ natStr (e - (n + 1)) ++ "; " ++
      dimVar ++ natStr (e - (n + 1)) ++ "++) \x7b\n        " ++ loopVecOfPrimA2C e n ++
      "\n      \x7d"

/-- computeInputFn loopMat.  The cvStartOffset argument is the undefined
value in the MAT branch, which makes utils.expandArgus throw at the
innermost level. -/
def loopMatA2C (d : UDataDtor) (e : Nat) (cvStartOffset : Option Nat)
    (newCvVar : Option String) : Nat → Except String String
  | 0 =>
    match cvStartOffset with
    | none => .error expandArgusStartErr
    | some so =>
      if d.channels = 1 then
        match cvToStd d.type with
        | .error msg => .error msg
        | .ok std =>
          .ok ((match newCvVar with | some v => v | none => cvVar) ++ ".at<" ++ std ++
            ">(" ++ expandArgus2 dimVar so e ++ ") = " ++ dataInVar ++ "(" ++
            expandArgus1 dimVar e ++ ");")
      else if 1 < d.channels then
        match cvToStd d.type with
        | .error msg => .error msg
        | .ok std =>
          .ok (joinSep "\n" ((List.range d.channels).map (fun channelIdx =>
            (match newCvVar with | some v => v | none => cvVar) ++ ".at<Vec<" ++ std ++
              ", " ++ natStr d.channels ++ ">>(" ++ expandArgus2 dimVar so e ++ ")[" ++
              natStr channelIdx ++ "] = " ++ dataInVar ++ "(" ++ expandArgus1 dimVar e ++
              ", " ++ natStr channelIdx ++ ");")))
      else .error ("Invalid channel number: " ++ natStr d.channels)
  | n + 1 =>
    match loopMatA2C d e cvStartOffset newCvVar n with
    | .error msg => .error msg
    | .ok inner =>
      .ok ("for (int " ++ dimVar ++ natStr (e - (n + 1)) ++ " = 0; " ++ dimVar ++
        natStr (e - (n + 1)) ++ " < " ++ dimSizeInVar ++ natStr (e - (n + 1)) ++ "; " ++
        dimVar ++ natStr (e - (n + 1)) ++ "++) \x7b\n        " ++ inner ++ "\n      \x7d")

/-- computeInputFn loopVecOfMat.  The recursion counts down the remaining
vector levels. -/
def loopVecOfMatA2C (d : UDataDtor) (vecDims matDims cvRank : Nat) :
    Nat → Except String String
  | 0 =>
    match loopMatA2C d (matDims + vecDims) (some vecDims) (some "mat") matDims with
    | .error msg => .error msg
    | .ok inner =>
      .ok ((if 1 < vecDims then
          "if (isnan(" ++ dataInVar ++ "(" ++ (expandArgus1 dimVar vecDims ++ ", 0") ++
            "))) \x7b break; \x7d"
        else "") ++
        "\n        Mat mat(" ++ natStr matDims ++ ", " ++ cvShapeVar ++ ", " ++
        (if 1 < d.channels then "CV_" ++ d.type ++ "C" ++ natStr d.channels
         else "CV_" ++ d.type) ++ ");\n        " ++ inner ++ "\n        " ++ cvVar ++
        expandAccessor1 dimVar (vecDims - 1) ++ ".push_back(mat);")
  | n + 1 =>
    match loopVecOfMatA2C d vecDims matDims cvRank n with
    | .error msg => .error msg
    | .ok inner =>
      .ok ("for (int " ++ dimVar ++ natStr (vecDims - (n + 1)) ++ " = 0; " ++ dimVar ++
        natStr (vecDims - (n + 1)) ++ " < " ++ dimSizeInVar ++ natStr (vecDims - (n + 1)) ++
        "; " ++ dimVar ++ natStr (vecDims - (n + 1)) ++ "++) \x7b\n        " ++ inner ++
        "\n      \x7d")

/-- computeInputFn convertTensorToCvByShape: the tensor-to-container code
(declaration plus copy loops).  A shape type outside the four cases leaves
both template slots undefined in the source. -/
def convertTensorToCvByShape (p : GenShape) : Except String String :=
  if p.type = VEC_OF_CV then
    match loopVecOfCvA2C p.dataDtor p.cvRank p.cvRank with
    | .error msg => .error msg
    | .ok loopStr =>
      .ok ((p.typeDecStr ++ " " ++ cvVar ++
        (if 1 < p.vecDims then "(" ++ dimSizeInVar ++ "0" ++ ")" else "") ++ ";") ++
        "\n    " ++ loopStr)
  else if p.type = VEC_OF_PRIM then
    .ok ((p.typeDecStr ++ " " ++ cvVar ++
      (if 1 < p.vecDims then "(" ++ dimSizeInVar ++ "0" ++ ")" else "") ++ ";") ++
      "\n    " ++ loopVecOfPrimA2C p.cvRank p.cvRank)
  else if p.type = VEC_OF_MAT then
    match loopVecOfMatA2C p.dataDtor p.vecDims p.matDims p.cvRank p.vecDims with
    | .error msg => .error msg
    | .ok vloop =>
      .ok ((p.typeDecStr ++ " " ++ cvVar ++
        (if 1 < p.vecDims then "(" ++ dimSizeInVar ++ "0" ++ ")" else "") ++ ";") ++
        "\n    " ++
        ("int " ++ cvShapeVar ++ "[] = \x7b " ++
          expandArgus2 dimSizeInVar p.vecDims p.cvRank ++ " \x7d;\n        " ++ vloop))
  else if p.type = MAT then
    match (if p.dataDtor.format = "cv" then .ok p.dataDtor.origStr
           else stdToCv p.dataDtor.origStr) with
    | .error msg => .error msg
    | .ok matDtype =>
      match loopMatA2C p.dataDtor p.cvRank Option.none Option.none p.cvRank with
      | .error msg => .error msg
      | .ok loopStr =>
        .ok (("const int " ++ nameVar ++ "_shape[] = \x7b " ++
          expandArgus1 dimSizeInVar p.cvRank ++ " \x7d;\n        " ++ p.typeDecStr ++
          " " ++ cvVar ++ "(" ++ natStr p.cvRank ++ ", " ++ nameVar ++ "_shape, " ++
          matDtype ++ ");") ++ "\n    " ++ loopStr)
  else .ok ("undefined" ++ "\n    " ++ "undefined")

/-- The [0][0]... accessor prefix used by declareCvDimSize. -/
def repAcc (n : Nat) : String := concatAll ((List.range n).map (fun _ => "[0]"))

/-- computeOutputFn declareCvDimSize: one size declaration per vector
layer (probing .size() on the first element chain), one per block
dimension (probing .size[i]), and a channels line for multichannel data. -/
def declareCvDimSize (p : GenShape) : String :=
  concatAll ((List.range p.vecDims).map (fun i =>
    "const int32 " ++ dimSizeOutVar ++ natStr i ++ " = static_cast<int32>(" ++ cvVar ++
      repAcc i ++ ".size());\n")) ++
  concatAll ((List.range p.matDims).map (fun i =>
    "const int32 " ++ dimSizeOutVar ++ natStr (p.vecDims + i) ++
      " = static_cast<int32>(" ++ cvVar ++ repAcc p.vecDims ++ ".size[" ++ natStr i ++
      "]);\n")) ++
  (if 1 < p.dataDtor.channels then
    (if p.type = "VEC_OF_CV" then
      "const int32 " ++ dimSizeOutVar ++ natStr (p.vecDims + p.matDims) ++
        " = static_cast<int32>(" ++ cvVar ++ repAcc p.vecDims ++ ".channels);\n"
    else
      "const int32 " ++ dimSizeOutVar ++ natStr (p.vecDims + p.matDims) ++
        " = static_cast<int32>(" ++ cvVar ++ repAcc p.vecDims ++ ".channels());\n")
  else "")

/-- computeOutputFn loopVecOfCv. -/
def loopVecOfCvC2A (d : UDataDtor) (e : Nat) : Nat → String
  | 0 =>
    joinSep "\n" ((List.range d.channels).map (fun channelIdx =>
      dataOutVar ++ "(" ++ expandArgus1 dimVar e ++ ", " ++ natStr channelIdx ++ ") = " ++
        cvVar ++ expandAccessor1 dimVar e ++ "[" ++ natStr channelIdx ++ "];"))
  | n + 1 =>
    "for (int " ++ dimVar ++ natStr (e - (n + 1)) ++ " = 0; " ++ dimVar ++
      natStr (e - (n + 1)) ++ " < " ++ dimSizeOutVar ++ natStr (e - (n + 1)) ++ "; " ++
      dimVar ++ natStr (e - (n + 1)) ++ "++) \x7b\n      " ++ loopVecOfCvC2A d e n ++
      "\n      \x7d"

/-- computeOutputFn loopVecOfPrim. -/
def loopVecOfPrimC2A (e : Nat) : Nat → String
  | 0 =>
    dataOutVar ++ "(" ++ expandArgus1 dimVar e ++ ") = " ++ cvVar ++
      expandAccessor1 dimVar e ++ ";"
  | n + 1 =>
    "for (int " ++ dimVar ++ natStr (e - (n + 1)) ++ " = 0; " ++ dimVar ++
      natStr (e - (n + 1)) ++ " < " ++ dimSizeOutVar ++ natStr (e - (n + 1)) ++ "; " ++
      dimVar ++ natStr (e - (n + 1)) ++ "++) \x7b\n      " ++ loopVecOfPrimC2A e n ++
      "\n      \x7d"

/-- computeOutputFn loopVecOfMat. -/
def loopVecOfMatC2A (d : UDataDtor) (e vecDims : Nat) : Nat → Except String String
  | 0 =>
    match (if d.format = "cv" then cvToStd d.type else .ok d.type) with
    | .error msg => .error msg
    | .ok dtype =>
      if d.channels = 1 then
        .ok (dataOutVar ++ "(" ++ expandArgus1 dimVar e ++ ") = " ++ cvVar ++
          expandAccessor1 dimVar vecDims ++ ".at<" ++ dtype ++ ">(" ++
          expandArgus2 dimVar vecDims e ++ ");")
      else if 1 < d.channels then
        .ok (joinSep "\n" ((List.range d.channels).map (fun channelIdx =>
          dataOutVar ++ "(" ++ expandArgus1 dimVar e ++ ", " ++ natStr channelIdx ++
            ") = " ++ cvVar ++ expandAccessor1 dimVar vecDims ++ ".at<" ++ dtype ++
            ">(" ++
            ((if vecDims < e then expandArgus2 dimVar vecDims e ++ ", " else "") ++
              natStr channelIdx) ++ ");")))
      else .error ("Invalid channel number: " ++ natStr d.channels)
  | n + 1 =>
    match loopVecOfMatC2A d e vecDims n with
    | .error msg => .error msg
    | .ok inner =>
      .ok ("for (int " ++ dimVar ++ natStr (e - (n + 1)) ++ " = 0; " ++ dimVar ++
        natStr (e - (n + 1)) ++ " < " ++ dimSizeOutVar ++ natStr (e - (n + 1)) ++ "; " ++
        dimVar ++ natStr (e - (n + 1)) ++ "++) \x7b\n      " ++ inner ++ "\n      \x7d")

/-- computeOutputFn loopMat. -/
def loopMatC2A (d : UDataDtor) (e : Nat) : Nat → Except String String
  | 0 =>
    match (if d.format = "cv" then cvToStd d.type else .ok d.type) with
    | .error msg => .error msg
    | .ok dtype =>
      if d.channels = 1 then
        .ok (dataOutVar ++ "(" ++ expandArgus1 dimVar e ++ ") = " ++ cvVar ++ ".at<" ++
          dtype ++ ">(" ++ expandArgus1 dimVar e ++ ");")
      else if 1 < d.channels then
        .ok (joinSep "\n" ((List.range d.channels).map (fun channelIdx =>
          dataOutVar ++ "(" ++ expandArgus1 dimVar e ++ ", " ++ natStr channelIdx ++
            ") = " ++ cvVar ++ ".at<" ++ dtype ++ ">(" ++ expandArgus1 dimVar e ++ ", " ++
            natStr channelIdx ++ ");")))
      else .error ("Invalid channel number: " ++ natStr d.channels)
  | n + 1 =>
    match loopMatC2A d e n with
    | .error msg => .error msg
    | .ok inner =>
      .ok ("for (int " ++ dimVar ++ natStr (e - (n + 1)) ++ " = 0; " ++ dimVar ++
        natStr (e - (n + 1)) ++ " < " ++ dimSizeOutVar ++ natStr (e - (n + 1)) ++ "; " ++
        dimVar ++ natStr (e - (n + 1)) ++ "++) \x7b\n      " ++ inner ++ "\n      \x7d")

/-- computeOutputFn convertCvToTensorByShape: the container-to-tensor copy
loops.  A shape type outside the four cases leaves the template slot
undefined in the source. -/
def convertCvToTensorByShape (p : GenShape) : Except String String :=
  if p.type = VEC_OF_CV then .ok (loopVecOfCvC2A p.dataDtor p.cvRank p.cvRank)
  else if p.type = VEC_OF_PRIM then .ok (loopVecOfPrimC2A p.cvRank p.cvRank)
  else if p.type = VEC_OF_MAT then loopVecOfMatC2A p.dataDtor p.cvRank p.vecDims p.cvRank
  else if p.type = MAT then loopMatC2A p.dataDtor p.cvRank p.cvRank
  else .ok "undefined"

/-- The payload of a successful generation, with a default for errors. -/
def okD (r : Except String String) : String :=
  match r with
  | .ok c => c
  | .error _ => ""

set_option maxRecDepth 4000

/-- Sample data descriptors and shapes used in examples and witnesses. -/
def d64f1 : UDataDtor := { format := "cv", type := "64F", channels := 1, origStr := "CV_64F" }

def d64f2 : UDataDtor :=
  { format := "cv", type := "64F", channels := 2, origStr := "CV_64FC2" }

def dint : UDataDtor := { format := "std", type := "int", channels := 1, origStr := "int" }

def gsPrim1 : GenShape :=
  { type := "VEC_OF_PRIM", typeDecStr := "vector<int>", cvRank := 1, vecDims := 1,
    matDims := 0, dataDtor := dint }

def gsCv1 : GenShape :=
  { type := "VEC_OF_CV", typeDecStr := "vector<Vec<double, 2>>", cvRank := 1,
    vecDims := 1, matDims := 0, dataDtor := d64f2 }

example : loopVecOfPrimA2C 1 1 =
    "for (int " ++ dimVar ++ "0 = 0; " ++ dimVar ++ "0 < " ++ dimSizeInVar ++ "0; " ++
      dimVar ++ "0++) \x7b\n        \n        " ++ cvVar ++ ".push_back(" ++ dataInVar ++
      "(" ++ dimVar ++ "0));\n      \x7d" := by decide

example : hasSub "isnan".data (loopVecOfPrimA2C 2 2).data = true := by decide
example : hasSub "isnan".data (loopVecOfPrimA2C 1 1).data = false := by decide
example : loopMatA2C d64f1 2 Option.none Option.none 2 = .error expandArgusStartErr := by
  decide
example : hasSub "isnan".data (okD (loopVecOfCvA2C d64f2 1 1)).data = true := by decide
example : declareCvDimSize gsPrim1 =
    "const int32 " ++ dimSizeOutVar ++ "0 = static_cast<int32>(" ++ cvVar ++
      ".size());\n" := by decide
example : hasSub "if".data (declareCvDimSize gsCv1).data = false := by decide

theorem strOk_expandArgus1 {tmpl : String} (e : Nat) (h : strOk tmpl = true) :
    strOk (expandArgus1 tmpl e) = true := by
  apply strOk_joinSep (by decide)
  intro x hx
  simp only [List.mem_map] at hx
  obtain ⟨i, -, rfl⟩ := hx
  exact strOk_append h (strOk_natStr i)

theorem strOk_expandArgus2 {tmpl : String} (s e : Nat) (h : strOk tmpl = true) :
    strOk (expandArgus2 tmpl s e) = true := by
  apply strOk_joinSep (by decide)
  intro x hx
  simp only [List.mem_map] at hx
  obtain ⟨i, -, rfl⟩ := hx
  exact strOk_append h (strOk_natStr i)

theorem strOk_expandArgusFn {f : Nat → String} (e : Nat)
    (hf : ∀ i, strOk (f i) = true) : strOk (expandArgusFn f e) = true := by
  apply strOk_joinSep (by decide)
  intro x hx
  simp only [List.mem_map] at hx
  obtain ⟨i, -, rfl⟩ := hx
  exact hf i

theorem strOk_expandAccessor1 {tmpl : String} (e : Nat) (h : strOk tmpl = true) :
    strOk (expandAccessor1 tmpl e) = true := by
  apply strOk_concatAll
  intro x hx
  simp only [List.mem_map] at hx
  obtain ⟨i, -, rfl⟩ := hx
  exact strOk_append (strOk_append (strOk_append (by decide) h) (strOk_natStr i))
    (by decide)

theorem strOk_repAcc (n : Nat) : strOk (repAcc n) = true := by
  apply strOk_concatAll
  intro x hx
  simp only [List.mem_map] at hx
  obtain ⟨i, -, rfl⟩ := hx
  decide

theorem strOk_cvToStd {t std : String} (h : cvToStd t = .ok std) : strOk std = true := by
  unfold cvToStd at h
  split_ifs at h <;> first
    | (injection h with h1
       rw [← h1]
       decide)
    | exact absurd h (by simp)

set_option maxHeartbeats 1000000

theorem strOk_loopVecOfCvC2A (d : UDataDtor) (e : Nat) :
    ∀ n, strOk (loopVecOfCvC2A d e n) = true := by
  intro n
  induction n with
  | zero =>
    unfold loopVecOfCvC2A
    apply strOk_joinSep (by decide)
    intro x hx
    simp only [List.mem_map] at hx
    obtain ⟨i, -, rfl⟩ := hx
    repeat' first
      | apply strOk_append
      | apply strOk_expandArgus1
      | apply strOk_expandAccessor1
      | exact strOk_natStr _
      | decide
  | succ n ih =>
    unfold loopVecOfCvC2A
    repeat' first
      | apply strOk_append
      | exact ih
      | exact strOk_natStr _
      | decide

theorem strOk_loopVecOfPrimC2A (e : Nat) :
    ∀ n, strOk (loopVecOfPrimC2A e n) = true := by
  intro n
  induction n with
  | zero =>
    unfold loopVecOfPrimC2A
    repeat' first
      | apply strOk_append
      | apply strOk_expandArgus1
      | apply strOk_expandAccessor1
      | exact strOk_natStr _
      | decide
  | succ n ih =>
    unfold loopVecOfPrimC2A
    repeat' first
      | apply strOk_append
      | exact ih
      | exact strOk_natStr _
      | decide

theorem strOk_dtypeOf {d : UDataDtor} {dtype : String} (hdt : strOk d.type = true)
    (h : (if d.format = "cv" then cvToStd d.type else .ok d.type) = .ok dtype) :
    strOk dtype = true := by
  split_ifs at h
  · exact strOk_cvToStd h
  · injection h with h1
    rw [← h1]
    exact hdt

theorem strOk_loopVecOfMatC2A {d : UDataDtor} {e v : Nat} (hdt : strOk d.type = true) :
    ∀ n code, loopVecOfMatC2A d e v n = .ok code → strOk code = true := by
  intro n
  induction n with
  | zero =>
    intro code h
    unfold loopVecOfMatC2A at h
    cases hm : (if d.format = "cv" then cvToStd d.type else Except.ok d.type) with
    | error m =>
      rw [hm] at h
      exact absurd h (by simp)
    | ok dtype =>
      have hdty := strOk_dtypeOf hdt hm
      simp only [hm] at h
      split_ifs at h with h1 h2 h3
      · injection h with hc
        rw [← hc]
        repeat' first
          | apply strOk_append
          | apply strOk_expandArgus1
          | apply strOk_expandArgus2
          | apply strOk_expandAccessor1
          | exact hdty
          | exact strOk_natStr _
          | decide
      · injection h with hc
        rw [← hc]
        apply strOk_joinSep (by decide)
        intro x hx
        simp only [List.mem_map] at hx
        obtain ⟨i, -, rfl⟩ := hx
        repeat' first
          | apply strOk_append
          | apply strOk_expandArgus1
          | apply strOk_expandArgus2
          | apply strOk_expandAccessor1
          | exact hdty
          | exact strOk_natStr _
          | decide
      · injection h with hc
        rw [← hc]
        apply strOk_joinSep (by decide)
        intro x hx
        simp only [List.mem_map] at hx
        obtain ⟨i, -, rfl⟩ := hx
        repeat' first
          | apply strOk_append
          | apply strOk_expandArgus1
          | apply strOk_expandArgus2
          | apply strOk_expandAccessor1
          | exact hdty
          | exact strOk_natStr _
          | decide
  | succ n ih =>
    intro code h
    unfold loopVecOfMatC2A at h
    cases hm : loopVecOfMatC2A d e v n with
    | error m =>
      rw [hm] at h
      exact absurd h (by simp)
    | ok inner =>
      simp only [hm] at h
      injection h with hc
      rw [← hc]
      repeat' first
        | apply strOk_append
        | exact ih inner hm
        | exact strOk_natStr _
        | decide

theorem strOk_loopMatC2A {d : UDataDtor} {e : Nat} (hdt : strOk d.type = true) :
    ∀ n code, loopMatC2A d e n = .ok code → strOk code = true := by
  intro n
  induction n with
  | zero =>
    intro code h
    unfold loopMatC2A at h
    cases hm : (if d.format = "cv" then cvToStd d.type else Except.ok d.type) with
    | error m =>
      rw [hm] at h
      exact absurd h (by simp)
    | ok dtype =>
      have hdty := strOk_dtypeOf hdt hm
      simp only [hm] at h
      split_ifs at h with h1 h2
      · injection h with hc
        rw [← hc]
        repeat' first
          | apply strOk_append
          | apply strOk_expandArgus1
          | exact hdty
          | exact strOk_natStr _
          | decide
      · injection h with hc
        rw [← hc]
        apply strOk_joinSep (by decide)
        intro x hx
        simp only [List.mem_map] at hx
        obtain ⟨i, -, rfl⟩ := hx
        repeat' first
          | apply strOk_append
          | apply strOk_expandArgus1
          | exact hdty
          | exact strOk_natStr _
          | decide
  | succ n ih =>
    intro code h
    unfold loopMatC2A at h
    cases hm : loopMatC2A d e n with
    | error m =>
      rw [hm] at h
      exact absurd h (by simp)
    | ok inner =>
      simp only [hm] at h
      injection h with hc
      rw [← hc]
      repeat' first
        | apply strOk_append
        | exact ih inner hm
        | exact strOk_natStr _
        | decide

theorem strOk_declareCvDimSize (p : GenShape) : strOk (declareCvDimSize p) = true := by
  unfold declareCvDimSize
  apply strOk_append
  apply strOk_append
  · apply strOk_concatAll
    intro x hx
    simp only [List.mem_map] at hx
    obtain ⟨i, -, rfl⟩ := hx
    repeat' first
      | apply strOk_append
      | exact strOk_repAcc _
      | exact strOk_natStr _
      | decide
  · apply strOk_concatAll
    intro x hx
    simp only [List.mem_map] at hx
    obtain ⟨i, -, rfl⟩ := hx
    repeat' first
      | apply strOk_append
      | exact strOk_repAcc _
      | exact strOk_natStr _
      | decide
  · split_ifs <;>
      repeat' first
        | apply strOk_append
        | exact strOk_repAcc _
        | exact strOk_natStr _
        | decide

theorem strOk_convertC2A {p : GenShape} (hdt : strOk p.dataDtor.type = true) :
    ∀ code, convertCvToTensorByShape p = .ok code → strOk code = true := by
  intro code h
  unfold convertCvToTensorByShape at h
  split_ifs at h
  · injection h with hc
    rw [← hc]
    exact strOk_loopVecOfCvC2A _ _ _
  · injection h with hc
    rw [← hc]
    exact strOk_loopVecOfPrimC2A _ _
  · exact strOk_loopVecOfMatC2A hdt _ code h
  · exact strOk_loopMatC2A hdt _ code h
  · injection h with hc
    rw [← hc]
    decide

theorem hasSub_loopVecOfCvA2C {d : UDataDtor} {e : Nat} :
    ∀ n code, loopVecOfCvA2C d e n = .ok code → hasSub "isnan".data code.data = true := by
  intro n
  induction n with
  | zero =>
    intro code h
    unfold loopVecOfCvA2C at h
    cases hm : cvToStd d.type with
    | error m =>
      rw [hm] at h
      exact absurd h (by simp)
    | ok std =>
      simp only [hm] at h
      injection h with hc
      rw [← hc]
      simp only [strData_append]
      repeat' first
        | decide
        | apply hasSub_append_left
  | succ n ih =>
    intro code h
    unfold loopVecOfCvA2C at h
    cases hm : loopVecOfCvA2C d e n with
    | error m =>
      rw [hm] at h
      exact absurd h (by simp)
    | ok inner =>
      simp only [hm] at h
      injection h with hc
      rw [← hc]
      simp only [strData_append]
      apply hasSub_append_left
      apply hasSub_append_right
      exact ih inner hm

theorem hasSub_loopVecOfPrimA2C {e : Nat} (he : 1 < e) :
    ∀ n, hasSub "isnan".data (loopVecOfPrimA2C e n).data = true := by
  intro n
  induction n with
  | zero =>
    simp only [loopVecOfPrimA2C]
    rw [if_pos he]
    simp only [strData_append]
    repeat' first
      | decide
      | apply hasSub_append_left
  | succ n ih =>
    simp only [loopVecOfPrimA2C]
    simp only [strData_append]
    apply hasSub_append_left
    apply hasSub_append_right
    exact ih

theorem strOk_loopVecOfPrimA2C_small {e : Nat} (he : ¬ 1 < e) :
    ∀ n, strOk (loopVecOfPrimA2C e n) = true := by
  intro n
  induction n with
  | zero =>
    simp only [loopVecOfPrimA2C]
    rw [if_neg he]
    repeat' first
      | apply strOk_append
      | apply strOk_expandArgus1
      | apply strOk_expandAccessor1
      | exact strOk_natStr _
      | decide
  | succ n ih =>
    simp only [loopVecOfPrimA2C]
    repeat' first
      | apply strOk_append
      | exact ih
      | exact strOk_natStr _
      | decide

theorem loopMatA2C_none {d : UDataDtor} {e : Nat} {v : Option String} :
    ∀ n, loopMatA2C d e Option.none v n = .error expandArgusStartErr := by
  intro n
  induction n with
  | zero => rfl
  | succ n ih =>
    unfold loopMatA2C
    rw [ih]

theorem strOk_loopMatA2C {d : UDataDtor} {e : Nat} {so : Option Nat} {v : Option String}
    (hv : strOk (match v with | some s => s | none => cvVar) = true) :
    ∀ n code, loopMatA2C d e so v n = .ok code → strOk code = true := by
  intro n
  induction n with
  | zero =>
    intro code h
    unfold loopMatA2C at h
    cases so with
    | none => exact absurd h (by simp)
    | some so' =>
      split_ifs at h with h1 h2
      · cases hm : cvToStd d.type with
        | error m =>
          rw [hm] at h
          exact absurd h (by simp)
        | ok std =>
          have hstd := strOk_cvToStd hm
          simp only [hm] at h
          injection h with hc
          rw [← hc]
          repeat' first
            | apply strOk_append
            | apply strOk_expandArgus1
            | apply strOk_expandArgus2
            | exact hv
            | exact hstd
            | exact strOk_natStr _
            | decide
      · cases hm : cvToStd d.type with
        | error m =>
          rw [hm] at h
          exact absurd h (by simp)
        | ok std =>
          have hstd := strOk_cvToStd hm
          simp only [hm] at h
          injection h with hc
          rw [← hc]
          apply strOk_joinSep (by decide)
          intro x hx
          simp only [List.mem_map] at hx
          obtain ⟨i, -, rfl⟩ := hx
          repeat' first
            | apply strOk_append
            | apply strOk_expandArgus1
            | apply strOk_expandArgus2
            | exact hv
            | exact hstd
            | exact strOk_natStr _
            | decide
  | succ n ih =>
    intro code h
    unfold loopMatA2C at h
    cases hm : loopMatA2C d e so v n with
    | error m =>
      rw [hm] at h
      exact absurd h (by simp)
    | ok inner =>
      simp only [hm] at h
      injection h with hc
      rw [← hc]
      repeat' first
        | apply strOk_append
        | exact ih inner hm
        | exact strOk_natStr _
        | decide

theorem loopVecOfMatA2C_ok {d : UDataDtor} {vD mD cvR : Nat} (hdt : strOk d.type = true) :
    ∀ n code, loopVecOfMatA2C d vD mD cvR n = .ok code →
      (1 < vD → hasSub "isnan".data code.data = true) ∧
      (¬ 1 < vD → strOk code = true) := by
  intro n
  induction n with
  | zero =>
    intro code h
    simp only [loopVecOfMatA2C] at h
    cases hm : loopMatA2C d (mD + vD) (some vD) (some "mat") mD with
    | error m =>
      rw [hm] at h
      exact absurd h (by simp)
    | ok inner =>
      simp only [hm] at h
      injection h with hc
      have hin : strOk inner = true := strOk_loopMatA2C (by decide) mD inner hm
      constructor
      · intro hgt
        rw [← hc, if_pos hgt]
        simp only [strData_append]
        repeat' first
          | decide
          | apply hasSub_append_left
      · intro hle
        rw [← hc, if_neg hle]
        repeat' first
          | apply strOk_append
          | apply strOk_expandAccessor1
          | exact hin
          | exact hdt
          | exact strOk_natStr _
          | split_ifs
          | decide
  | succ n ih =>
    intro code h
    simp only [loopVecOfMatA2C] at h
    cases hm : loopVecOfMatA2C d vD mD cvR n with
    | error m =>
      rw [hm] at h
      exact absurd h (by simp)
    | ok inner =>
      simp only [hm] at h
      injection h with hc
      have hrec := ih inner hm
      constructor
      · intro hgt
        rw [← hc]
        simp only [strData_append]
        apply hasSub_append_left
        apply hasSub_append_right
        exact hrec.1 hgt
      · intro hle
        rw [← hc]
        repeat' first
          | apply strOk_append
          | exact hrec.2 hle
          | exact strOk_natStr _
          | decide

theorem hasSub_concatAll_head {pat : List Char} {x : String} {xs : List String}
    (h : hasSub pat x.data = true) : hasSub pat (concatAll (x :: xs)).data = true := by
  show hasSub pat (x ++ concatAll xs).data = true
  rw [strData_append]
  exact hasSub_append_left _ h

def ddouble : UDataDtor :=
  { format := "std", type := "double", channels := 1, origStr := "double" }

def gsPrim2 : GenShape :=
  { type := "VEC_OF_PRIM", typeDecStr := "vector<vector<int>>", cvRank := 2, vecDims := 2,
    matDims := 0, dataDtor := dint }

def gsPrimNone : GenShape :=
  { type := "VEC_OF_PRIM", typeDecStr := "vector<double>", cvRank := 1, vecDims := 1,
    matDims := 0, dataDtor := ddouble }

/-- C3.  In Array-to-Container synthesis the early-stop isnan guard is
emitted exactly when the shape is VEC_OF_CV (always, even at the first
vector layer), or VEC_OF_PRIM with rank above one, or VEC_OF_MAT with more
than one vector layer — the loop builders never consult the dimension
sizes, so whether a size is Unknown is irrelevant — and the
Container-to-Array synthesis never emits an isnan guard.  (The MAT branch
of the tensor-to-container direction always throws, so it produces no
code.)  C3_counterexample refutes the original claim on the size-Unknown
and beyond-the-first-layer provisos. -/
theorem C3_early_stop_guard (p : GenShape) (htd : strOk p.typeDecStr = true)
    (hdt : strOk p.dataDtor.type = true)
    (hdom : (p.type = VEC_OF_CV → 1 ≤ p.cvRank) ∧
      (p.type = VEC_OF_PRIM → 1 ≤ p.cvRank) ∧
      (p.type = VEC_OF_MAT → 1 ≤ p.vecDims ∧ p.cvRank = p.vecDims + p.matDims)) :
    (∀ code, convertTensorToCvByShape p = .ok code →
      (hasSub "isnan".data code.data = true ↔
        (p.type = VEC_OF_CV ∨ p.type = VEC_OF_PRIM ∧ 1 < p.cvRank ∨
          p.type = VEC_OF_MAT ∧ 1 < p.vecDims))) ∧
    (∀ code, convertCvToTensorByShape p = .ok code →
      hasSub "isnan".data (declareCvDimSize p ++ code).data = false) := by
  constructor
  · intro code h
    unfold convertTensorToCvByShape at h
    by_cases h1 : p.type = VEC_OF_CV
    · rw [if_pos h1] at h
      cases hm : loopVecOfCvA2C p.dataDtor p.cvRank p.cvRank with
      | error m =>
        rw [hm] at h
        exact absurd h (by simp)
      | ok loopStr =>
        simp only [hm] at h
        injection h with hc
        refine iff_of_true ?_ (Or.inl h1)
        rw [← hc]
        simp only [strData_append]
        apply hasSub_append_right
        exact hasSub_loopVecOfCvA2C _ loopStr hm
    · rw [if_neg h1] at h
      by_cases h2 : p.type = VEC_OF_PRIM
      · rw [if_pos h2] at h
        injection h with hc
        by_cases hr : 1 < p.cvRank
        · refine iff_of_true ?_ (Or.inr (Or.inl ⟨h2, hr⟩))
          rw [← hc]
          simp only [strData_append]
          apply hasSub_append_right
          exact hasSub_loopVecOfPrimA2C hr _
        · refine iff_of_false ?_ ?_
          · intro hcontra
            have hok : strOk code = true := by
              rw [← hc]
              repeat' first
                | apply strOk_append
                | exact htd
                | exact strOk_loopVecOfPrimA2C_small hr _
                | split_ifs
                | decide
            have habs := strOk_no_isnan hok
            rw [hcontra] at habs
            exact absurd habs (by decide)
          · intro hRHS
            rcases hRHS with hx | ⟨hx, hxx⟩ | ⟨hx, hxx⟩
            · exact h1 hx
            · exact hr hxx
            · rw [h2] at hx
              exact absurd hx (by decide)
      · rw [if_neg h2] at h
        by_cases h3 : p.type = VEC_OF_MAT
        · rw [if_pos h3] at h
          cases hm : loopVecOfMatA2C p.dataDtor p.vecDims p.matDims p.cvRank p.vecDims with
          | error m =>
            rw [hm] at h
            exact absurd h (by simp)
          | ok vloop =>
            simp only [hm] at h
            injection h with hc
            have hvm := loopVecOfMatA2C_ok hdt _ vloop hm
            by_cases hr : 1 < p.vecDims
            · refine iff_of_true ?_ (Or.inr (Or.inr ⟨h3, hr⟩))
              rw [← hc]
              simp only [strData_append]
              apply hasSub_append_right
              apply hasSub_append_right
              exact hvm.1 hr
            · refine iff_of_false ?_ ?_
              · intro hcontra
                have hok : strOk code = true := by
                  rw [← hc]
                  repeat' first
                    | apply strOk_append
                    | exact htd
                    | exact hvm.2 hr
                    | apply strOk_expandArgus2
                    | split_ifs
                    | decide
                have habs := strOk_no_isnan hok
                rw [hcontra] at habs
                exact absurd habs (by decide)
              · intro hRHS
                rcases hRHS with hx | ⟨hx, hxx⟩ | ⟨hx, hxx⟩
                · exact h1 hx
                · exact h2 hx
                · exact hr hxx
        · rw [if_neg h3] at h
          by_cases h4 : p.type = MAT
          · exfalso
            rw [if_pos h4] at h
            cases hm1 : (if p.dataDtor.format = "cv" then Except.ok p.dataDtor.origStr
                else stdToCv p.dataDtor.origStr) with
            | error m =>
              rw [hm1] at h
              exact absurd h (by simp)
            | ok matDtype =>
              simp only [hm1, loopMatA2C_none] at h
              exact absurd h (by simp)
          · rw [if_neg h4] at h
            injection h with hc
            refine iff_of_false ?_ ?_
            · rw [← hc]
              decide
            · intro hRHS
              rcases hRHS with hx | ⟨hx, -⟩ | ⟨hx, -⟩
              · exact h1 hx
              · exact h2 hx
              · exact h3 hx
  · intro code h
    exact strOk_no_isnan
      (strOk_append (strOk_declareCvDimSize p) (strOk_convertC2A hdt code h))

/-- Counterexample to C3 as stated: the guard is emitted for a
two-dimensional vector of primitives whose sizes are all statically known
(no Unknown dimension is involved), and for a vector of CV cells with a
single vector layer (not beyond the first). -/
theorem C3_counterexample :
    hasSub "isnan".data (okD (convertTensorToCvByShape gsPrim2)).data = true ∧
    hasSub "isnan".data (okD (convertTensorToCvByShape gsCv1)).data = true := by
  refine ⟨by decide, by decide⟩

/-- Witness for C3 on a rank-one vector of primitives (no guard). -/
theorem C3_witness :
    hasSub "isnan".data (okD (convertTensorToCvByShape gsPrim1)).data = true ↔
      (gsPrim1.type = VEC_OF_CV ∨ gsPrim1.type = VEC_OF_PRIM ∧ 1 < gsPrim1.cvRank ∨
        gsPrim1.type = VEC_OF_MAT ∧ 1 < gsPrim1.vecDims) :=
  (C3_early_stop_guard gsPrim1 (by decide) (by decide) ⟨by decide, by decide, by decide⟩).1
    (okD (convertTensorToCvByShape gsPrim1)) (by decide)

/-- C4.  In Container-to-Array synthesis there is no empty-container
guard: the emitted code (size declarations plus copy loops) contains no if
statement at all, and whenever there is at least one vector layer the
.size() probe on the outermost container is emitted unconditionally. -/
theorem C4_empty_container (p : GenShape) (hdt : strOk p.dataDtor.type = true) :
    hasSub "if".data (declareCvDimSize p).data = false ∧
    (∀ code, convertCvToTensorByShape p = .ok code →
      hasSub "if".data (declareCvDimSize p ++ code).data = false) ∧
    (1 ≤ p.vecDims → hasSub ".size()".data (declareCvDimSize p).data = true) := by
  refine ⟨strOk_no_if (strOk_declareCvDimSize p), fun code h => ?_, fun hv => ?_⟩
  · exact strOk_no_if
      (strOk_append (strOk_declareCvDimSize p) (strOk_convertC2A hdt code h))
  · obtain ⟨k, hk⟩ : ∃ k, p.vecDims = k + 1 := ⟨p.vecDims - 1, by omega⟩
    unfold declareCvDimSize
    rw [hk, List.range_succ_eq_map]
    simp only [List.map_cons]
    simp only [strData_append]
    apply hasSub_append_left
    apply hasSub_append_left
    apply hasSub_concatAll_head
    decide

/-- Counterexample to C4 as stated: for the output shape
[vector:none, double] the emitted container-to-array code probes .size()
unconditionally and contains no if statement, hence no empty-container
guard. -/
theorem C4_counterexample :
    hasSub "if".data
      (declareCvDimSize gsPrimNone ++ okD (convertCvToTensorByShape gsPrimNone)).data =
        false ∧
    hasSub ".size()".data (declareCvDimSize gsPrimNone).data = true := by
  refine ⟨by decide, by decide⟩

/-- Witness for C4 on the vector-of-CV output shape. -/
theorem C4_witness :
    hasSub ".size()".data (declareCvDimSize gsCv1).data = true :=
  (C4_empty_container gsCv1 (by decide)).2.2 (by decide)
